import Mathlib

/-!
Verification of the godi dependency-injection container (pkg/injector.go,
pkg/global.go) against its specification.

The embedding models the reflection-driven resolution engine as operations on
an explicit state: a registry of bindings keyed by (type, name), a heap of
struct objects (so that referential identity is the identity of heap
addresses), destination cells for `Resolve`, and the list of errors surfaced
through the installed error handler ("sink").  Providers are zero-argument
factories whose behaviour is one of: allocate a fresh zero-valued struct,
return nil, or return a non-nil error.  The per-call resolution context
(`instantiated` in the source) is keyed, as in the source, by the provider's
function type (its list of declared outputs) together with the binding name.
All recursive functions are fuelled; returning `RO.ok` for some fuel is the
formal rendering of termination of the corresponding Go call.
-/

namespace Godi

/-- The reflect kinds distinguished by the injector's validation code. -/
inductive Kind
| ptrK
| ifaceK
| structK
| otherK
deriving DecidableEq, Repr

/-- Symbolic Go types: pointer types, interface types, struct types,
the built-in error interface, and everything else (int, func, ...). -/
inductive Ty
| ptrTo (t : Ty)
| ifaceTy (nm : String)
| structTy (nm : String)
| errTy
| baseTy (nm : String)
deriving DecidableEq, Repr

/-- The reflect kind of a type; the error interface has interface kind. -/
def Ty.kind : Ty → Kind
| .ptrTo _ => .ptrK
| .ifaceTy _ => .ifaceK
| .structTy _ => .structK
| .errTy => .ifaceK
| .baseTy _ => .otherK

/-- Runtime values: nil, or a reference to a heap object.  Referential
identity of two values is equality of their addresses. -/
inductive Val
| nilV
| ref (a : Nat)
deriving DecidableEq, Repr

/-- A `di` struct tag: `di:"type"`, `di:"name"`, or anything else. -/
inductive Tag
| byType
| byName
| other (s : String)
deriving DecidableEq, Repr

/-- A declared struct field: its identifier, declared type, and optional tag. -/
structure FieldDecl where
  fname : String
  fty : Ty
  tag : Option Tag
deriving DecidableEq, Repr

/-- A heap object: an instance of a named struct type with field values. -/
structure Obj where
  tyName : String
  flds : List (String × Val)
deriving DecidableEq, Repr

/-- The Go program's struct declarations: struct name to field list. -/
abbrev TyEnv := List (String × List FieldDecl)

/-- What a provider's body returns when invoked: a pointer to a fresh
zero-valued struct (with a nil second value, if declared), nil values
throughout, a nil first value with a non-nil error, or a non-nil value of a
non-nilable, non-struct dynamic kind (an int boxed in the declared
interface, say) with a nil second value. -/
inductive PBody
| allocStruct (nm : String)
| retNil
| retErr (msg : String)
| retBase
deriving DecidableEq, Repr

/-- A provider function: its declared output types (which determine its
reflect function type, the key of the resolution context) and its body. -/
structure Provider where
  outs : List Ty
  body : PBody
deriving DecidableEq, Repr

/-- The `bindingtype` enum of the source. -/
inductive BTy
| instanceB
| singletonB
deriving DecidableEq, Repr

/-- The `binding` struct: provider, lifecycle kind, and the cached
singleton instance (`binding.instance` in the source). -/
structure Binding where
  provider : Provider
  btype : BTy
  inst : Option Val
deriving DecidableEq, Repr

/-- The error taxonomy, one constructor per distinct failure site. -/
inductive Err
| notFound (t : Ty)
| notFoundParam (t : Ty)
| passedByValue (t : Ty)
| nilAbstraction
| invalidArgKind (t : Ty)
| unresolvedField (f : String) (t : Ty)
| invalidTagOn (f : String) (tg : Tag)
| invalidFillArg
| nilProviderResult
| providerError (msg : String)
| mustBeFunction
| noArgsAllowed
| wrongOutCount
| mustReturnRef
| invalidTargetKind (t : Ty)
| unableToResolve (t : Ty)
| outOfFuel
deriving DecidableEq, Repr

/-- The injector state: the struct declarations of the ambient program,
the binding registry, the heap, destination cells for `Resolve`, and the
errors surfaced so far through the installed error handler. -/
structure St where
  env : TyEnv
  bindings : List ((Ty × String) × Binding)
  heap : List Obj
  cells : List Val
  sink : List Err
deriving DecidableEq, Repr

/-- Association-list lookup (first match wins). -/
def alookup {κ β : Type} [DecidableEq κ] : List (κ × β) → κ → Option β
| [], _ => none
| p :: t, k => if k = p.1 then some p.2 else alookup t k

/-- Association-list update of an existing key (no insertion). -/
def aset {κ β : Type} [DecidableEq κ] (l : List (κ × β)) (k : κ) (f : β → β) :
    List (κ × β) :=
  l.map fun p => if p.1 = k then (p.1, f p.2) else p

/-- Association-list insert; shadows any earlier entry for the key. -/
def ains {κ β : Type} [DecidableEq κ] (l : List (κ × β)) (k : κ) (v : β) :
    List (κ × β) :=
  (k, v) :: l

/-- The zero value of a struct: every declared field nil. -/
def zeroFieldsOf (env : TyEnv) (nm : String) : List (String × Val) :=
  ((alookup env nm).getD []).map fun fd => (fd.fname, Val.nilV)

/-- Write field `f` of the object at address `a`. -/
def setField (s : St) (a : Nat) (f : String) (v : Val) : St :=
  match s.heap[a]? with
  | some o => { s with heap := s.heap.set a { o with flds := aset o.flds f fun _ => v } }
  | none => s

/-- Cache a singleton instance into the binding at key `k`
(`b.instance = instance` in the source). -/
def setInst (s : St) (k : Ty × String) (v : Val) : St :=
  { s with bindings := aset s.bindings k fun b => { b with inst := some v } }

/-- Surface an error through the installed error handler
(`injector.handleError` with a handler installed). -/
def sinkErr (s : St) (e : Err) : St :=
  { s with sink := s.sink ++ [e] }

/-- Write destination cell `c` (the pointee of a `Resolve` argument). -/
def setCell (s : St) (c : Nat) (v : Val) : St :=
  { s with cells := s.cells.set c v }

/-- Outcome of an operation: normal return, returned Go error, or an
unrecovered Go panic.  Every outcome carries the post-state. -/
inductive RO (α : Type)
| ok (a : α) (s : St)
| fail (e : Err) (s : St)
| panicked (s : St)
deriving DecidableEq, Repr

/-- The post-state of an outcome. -/
def RO.st {α : Type} : RO α → St
| .ok _ s => s
| .fail _ s => s
| .panicked s => s

/-- Whether a type's kind is pointer or interface (the kinds accepted for
provider first outputs and for `Get` type arguments). -/
def kindRefOk (t : Ty) : Bool :=
  match t.kind with
  | .ptrK => true
  | .ifaceK => true
  | _ => false

/-- Whether a type's kind is struct, interface or pointer (the pointee
kinds accepted by `Injector.resolve`). -/
def kindElemOk (t : Ty) : Bool :=
  match t.kind with
  | .ptrK => true
  | .ifaceK => true
  | .structK => true
  | _ => false

/-- `Injector.invoke`: call a provider with no arguments.  With one
declared output, a nil result fails with the nil-provider-result error, a
non-nilable non-struct dynamic result panics in `resv.IsNil()`, and any
other result is returned (a one-output provider of a non-nil error value
returns that value as the instance).  With two declared outputs the source
first boxes the second value and, when the boxed interface is non-nil,
asserts it to `error` (`values[1].Interface().(error)`): a concrete
(non-interface) second output boxes to a non-nil interface even when the
value is a nil pointer, so every invocation panics in the assertion (the
symbolic concrete types of this model do not implement error); a non-error
interface second output panics exactly when the provider returns a non-nil
second value; for the error interface a non-nil error is propagated and
otherwise the first value is checked as in the one-output case.  Any other
output count is the invalid-signature error. -/
def invoke (s : St) (p : Provider) : RO Val :=
  match p.outs with
  | [_] =>
    match p.body with
    | .allocStruct nm =>
        RO.ok (.ref s.heap.length)
          { s with heap := s.heap ++ [⟨nm, zeroFieldsOf s.env nm⟩] }
    | .retNil => RO.fail .nilProviderResult s
    | .retErr m =>
        RO.ok (.ref s.heap.length) { s with heap := s.heap ++ [⟨m, []⟩] }
    | .retBase => RO.panicked s
  | [_, t1] =>
    match t1.kind with
    | .ifaceK =>
      match p.body with
      | .allocStruct nm =>
          RO.ok (.ref s.heap.length)
            { s with heap := s.heap ++ [⟨nm, zeroFieldsOf s.env nm⟩] }
      | .retNil => RO.fail .nilProviderResult s
      | .retErr m =>
          if t1 = Ty.errTy then RO.fail (.providerError m) s else RO.panicked s
      | .retBase => RO.panicked s
    | _ => RO.panicked s
  | _ => RO.fail .wrongOutCount s

/-- The default (empty) binding name. -/
def defName : String := ""

/-- The per-call resolution context (`instantiated` in the source):
keyed by the provider's function type (its declared outputs) and the
binding name. -/
abbrev Ctx := List ((List Ty × String) × Val)

/-- The binding-name used for a tagged field: `di:"type"` resolves under
the default name, `di:"name"` under the field identifier. -/
def fillTagName (tg : Tag) (fname : String) : Option String :=
  match tg with
  | .byType => some defName
  | .byName => some fname
  | .other _ => none

mutual

/-- `binding.resolve`: check the per-call context, then either return the
cached singleton, or invoke the provider, record the raw instance in the
context, auto-wire its fields with the same context, and (for singletons)
cache it. -/
def resolveB : Nat → St → Ctx → Ty → String → RO (Val × Ctx)
| 0, s, _, _, _ => RO.fail .outOfFuel s
| n + 1, s, ctx, ty, name =>
  match alookup s.bindings (ty, name) with
  | none => RO.fail (.notFound ty) s
  | some b =>
    match alookup ctx (b.provider.outs, name) with
    | some v => RO.ok (v, ctx) s
    | none =>
      match b.btype with
      | .singletonB =>
        match b.inst with
        | some v => RO.ok (v, ctx) s
        | none =>
          match invoke s b.provider with
          | RO.fail e s1 => RO.fail e s1
          | RO.panicked s1 => RO.panicked s1
          | RO.ok v s1 =>
            match fillInstance n s1 (ains ctx (b.provider.outs, name) v) v with
            | RO.fail e s2 => RO.fail e s2
            | RO.panicked s2 => RO.panicked s2
            | RO.ok ctx2 s2 => RO.ok (v, ctx2) (setInst s2 (ty, name) v)
      | .instanceB =>
          match invoke s b.provider with
          | RO.fail e s1 => RO.fail e s1
          | RO.panicked s1 => RO.panicked s1
          | RO.ok v s1 =>
            match fillInstance n s1 (ains ctx (b.provider.outs, name) v) v with
            | RO.fail e s2 => RO.fail e s2
            | RO.panicked s2 => RO.panicked s2
            | RO.ok ctx2 s2 => RO.ok (v, ctx2) s2

/-- `Injector.fill` applied to a resolved instance: unwrap the reference
and wire every tagged field of the underlying struct. -/
def fillInstance : Nat → St → Ctx → Val → RO Ctx
| 0, s, _, _ => RO.fail .outOfFuel s
| n + 1, s, ctx, v =>
  match v with
  | .nilV => RO.fail .invalidFillArg s
  | .ref a =>
    match s.heap[a]? with
    | none => RO.fail .invalidFillArg s
    | some o => fillFields n s ctx a ((alookup s.env o.tyName).getD [])

/-- The field loop of `Injector.fill`.  An unrecognized tag or a missing
binding returns an error naming the field; a failing resolution surfaces
the raw error through the handler and then panics setting the field from
the nil instance (the source does not return after `handleError`). -/
def fillFields : Nat → St → Ctx → Nat → List FieldDecl → RO Ctx
| 0, s, _, _, _ => RO.fail .outOfFuel s
| _ + 1, s, ctx, _, [] => RO.ok ctx s
| n + 1, s, ctx, a, fd :: rest =>
  match fd.tag with
  | none => fillFields n s ctx a rest
  | some tg =>
    match fillTagName tg fd.fname with
    | none => RO.fail (.invalidTagOn fd.fname tg) s
    | some name =>
      match alookup s.bindings (fd.fty, name) with
      | none => RO.fail (.unresolvedField fd.fname fd.fty) s
      | some _ =>
        match resolveB n s ctx fd.fty name with
        | RO.ok (v, ctx1) s1 => fillFields n (setField s1 a fd.fname v) ctx1 a rest
        | RO.fail e s1 => RO.panicked (sinkErr s1 e)
        | RO.panicked s1 => RO.panicked s1

end

/-- `Injector.get`: look up the binding and resolve it with a fresh
context; failures are surfaced through the handler and nil is returned. -/
def getM (fuel : Nat) (s : St) (ty : Ty) (name : String) : RO (Option Val) :=
  match alookup s.bindings (ty, name) with
  | none => RO.ok none (sinkErr s (.notFound ty))
  | some _ =>
    match resolveB fuel s [] ty name with
    | RO.ok (v, _) s1 => RO.ok (some v) s1
    | RO.fail e s1 => RO.ok none (sinkErr s1 e)
    | RO.panicked s1 => RO.panicked s1

/-- The generic `Get`/`NamedGet` of global.go: a non-reference kind is
surfaced (without returning); a nil result from `get` makes the type
assertion panic, which the deferred recover reports as a second error
before returning the zero value. -/
def GetOp (fuel : Nat) (s : St) (ty : Ty) (name : String) : Option Val × St :=
  let s0 := if kindRefOk ty then s else sinkErr s (.invalidTargetKind ty)
  match getM fuel s0 ty name with
  | RO.ok (some v) s1 => (some v, s1)
  | RO.ok none s1 => (none, sinkErr s1 (.unableToResolve ty))
  | RO.fail _ s1 => (none, sinkErr s1 (.unableToResolve ty))
  | RO.panicked s1 => (none, sinkErr s1 (.unableToResolve ty))

/-- A `Resolve` destination: the reflect type of the argument and the
cell holding its pointee. -/
structure Dest where
  dty : Ty
  cell : Nat
deriving DecidableEq, Repr

/-- `Injector.resolve`: validate the argument, look up `(pointee, name)`,
fall back to a diagnostic lookup under the pointer type, and on success
assign the instance into the pointee. -/
def resolveM (fuel : Nat) (s : St) (dst : Option Dest) (name : String) : RO Unit :=
  match dst with
  | none => RO.fail .nilAbstraction s
  | some d =>
    match d.dty with
    | .ptrTo elem =>
      if kindElemOk elem then
        match alookup s.bindings (elem, name) with
        | some _ =>
          match resolveB fuel s [] elem name with
          | RO.ok (v, _) s1 => RO.ok () (setCell s1 d.cell v)
          | RO.fail e s1 => RO.fail e s1
          | RO.panicked s1 => RO.panicked s1
        | none =>
          match alookup s.bindings (d.dty, name) with
          | some _ => RO.fail (.passedByValue elem) s
          | none => RO.fail (.notFound elem) s
      else RO.fail (.invalidArgKind d.dty) s
    | _ => RO.fail (.invalidArgKind d.dty) s

/-- The public `Resolve`/`NamedResolve`: a returned error is surfaced once
through the handler; a panic propagates. -/
def ResolveOp (fuel : Nat) (s : St) (dst : Option Dest) (name : String) : RO Unit :=
  match resolveM fuel s dst name with
  | RO.ok _ s1 => RO.ok () s1
  | RO.fail e s1 => RO.ok () (sinkErr s1 e)
  | RO.panicked s1 => RO.panicked s1

/-- The public `Fill`: auto-wire with a fresh context; a returned error is
surfaced once through the handler; a panic propagates. -/
def FillOp (fuel : Nat) (s : St) (v : Val) : RO Unit :=
  match fillInstance fuel s [] v with
  | RO.ok _ s1 => RO.ok () s1
  | RO.fail e s1 => RO.ok () (sinkErr s1 e)
  | RO.panicked s1 => RO.panicked s1

/-- `Injector.arguments`: resolve each parameter type under the default
name; note the source builds a fresh empty context for every parameter. -/
def argumentsM : Nat → St → List Ty → RO (List Val)
| _, s, [] => RO.ok [] s
| fuel, s, p :: rest =>
  match alookup s.bindings (p, defName) with
  | none => RO.fail (.notFoundParam p) s
  | some _ =>
    match resolveB fuel s [] p defName with
    | RO.ok (v, _) s1 =>
      match argumentsM fuel s1 rest with
      | RO.ok vs s2 => RO.ok (v :: vs) s2
      | RO.fail e s2 => RO.fail e s2
      | RO.panicked s2 => RO.panicked s2
    | RO.fail e s1 => RO.fail e s1
    | RO.panicked s1 => RO.panicked s1

/-- `Injector.call`: a callable is its parameter-type list; `none` models
a non-function argument.  On success the callable is invoked with the
resolved arguments (returned here; its results are discarded). -/
def callM (fuel : Nat) (s : St) (fn : Option (List Ty)) : RO (List Val) :=
  match fn with
  | none => RO.fail .mustBeFunction s
  | some params => argumentsM fuel s params

/-- The public `Call`: `some args` means the callable was invoked with
`args`; `none` means the call was aborted and the error surfaced. -/
def CallOp (fuel : Nat) (s : St) (fn : Option (List Ty)) : RO (Option (List Val)) :=
  match callM fuel s fn with
  | RO.ok vs s1 => RO.ok (some vs) s1
  | RO.fail e s1 => RO.ok none (sinkErr s1 e)
  | RO.panicked s1 => RO.panicked s1

/-- The argument passed to `Injector.bind`: a non-function, or a function
with a parameter count and a provider signature. -/
inductive BindArg
| notFn
| fn (numIn : Nat) (p : Provider)
deriving DecidableEq, Repr

/-- `Injector.bind`: validate the provider signature, then register a
fresh binding under every declared output type.  The source checks that
the first output is pointer- or interface-kind but performs no check at
all on the second output. -/
def bindM (s : St) (arg : BindArg) (name : String) (bt : BTy) : Except Err St :=
  match arg with
  | .notFn => .error .mustBeFunction
  | .fn numIn p =>
    if numIn ≠ 0 then .error .noArgsAllowed
    else if p.outs.length = 1 ∨ p.outs.length = 2 then
      match p.outs with
      | [] => .error .wrongOutCount
      | t0 :: _ =>
        if kindRefOk t0 then
          .ok { s with
                bindings := p.outs.foldl
                  (fun bs t => ains bs (t, name) ⟨p, bt, none⟩) s.bindings }
        else .error .mustReturnRef
    else .error .wrongOutCount

/-- The registry may change only by updating cached-instance fields:
provider and lifecycle kind of every present key are preserved. -/
def BindShape (s s' : St) : Prop :=
  ∀ k b, alookup s.bindings k = some b →
    ∃ i, alookup s'.bindings k = some ⟨b.provider, b.btype, i⟩

/-- State evolution along any resolution step: struct declarations and
destination cells untouched, heap only grows, registry shape preserved. -/
def Pres (s s' : St) : Prop :=
  s'.env = s.env ∧ s'.cells = s.cells ∧ s.heap.length ≤ s'.heap.length ∧ BindShape s s'

/-- Context entries are only added, never removed or overwritten. -/
def CtxLe (c c' : Ctx) : Prop :=
  ∀ k v, alookup c k = some v → alookup c' k = some v

/-- The invariant attached to an outcome: state preservation, and the
error-sink discipline — a normal return or a returned error adds nothing
to the sink, and an unrecovered panic has surfaced at most one error
(zero for the reflection panics inside invoke, one for a field-resolution
failure inside fill). -/
def ROPres {α : Type} (s : St) (r : RO α) : Prop :=
  Pres s r.st ∧
  match r with
  | .ok _ s' => s'.sink = s.sink
  | .fail _ s' => s'.sink = s.sink
  | .panicked s' => s'.sink = s.sink ∨ ∃ e, s'.sink = s.sink ++ [e]

-- Names used by the concrete example programs.

def nA : String := "A"

def nB : String := "B"

def nC : String := "C"

def nN : String := "N"

def nS : String := "S"

def nT : String := "T"

def nU : String := "U"

def nb : String := "b"

def na : String := "a"

def nx : String := "x"

def bm : String := "boom"

def tyA : Ty := .ptrTo (.structTy nA)

def tyB : Ty := .ptrTo (.structTy nB)

def tyC : Ty := .ptrTo (.structTy nC)

def tyN : Ty := .ptrTo (.structTy nN)

def tyT : Ty := .ptrTo (.structTy nT)

def tyU : Ty := .ptrTo (.structTy nU)

/-- Follow a chain of field dereferences through the heap, checking that
every hop is a non-nil reference. -/
def chainOk (h : List Obj) : Nat → List String → Bool
| _, [] => true
| a, f :: rest =>
  match h[a]? with
  | none => false
  | some o =>
    match alookup o.flds f with
    | some (.ref a2) => chainOk h a2 rest
    | _ => false

/-- Mutually referential struct types `A{b *B di:type}` and `B{a *A di:type}`. -/
def c1Env : TyEnv :=
  [(nA, [⟨nb, tyB, some .byType⟩]), (nB, [⟨na, tyA, some .byType⟩])]

/-- Providers for `*A` and `*B` registered with the given lifecycle kinds. -/
def c1St (ka kb : BTy) : St :=
  ⟨c1Env,
   [((tyA, defName), ⟨⟨[tyA], .allocStruct nA⟩, ka, none⟩),
    ((tyB, defName), ⟨⟨[tyB], .allocStruct nB⟩, kb, none⟩)],
   [], [], []⟩

/-- The traversal `A.b`, `A.b.a`, ... six levels deep. -/
def c1Chain : List String := [nb, na, nb, na, nb, na]

/-- Resolving `*A` terminates and the cyclic chain is non-nil throughout. -/
def c1Check (ka kb : BTy) : Bool :=
  match resolveB 12 (c1St ka kb) [] tyA defName with
  | .ok (.ref a, _) s => chainOk s.heap a c1Chain
  | _ => false

/-- A singleton binding for `*C` where `C` has no fields. -/
def c2St : St :=
  ⟨[(nC, [])], [((tyC, defName), ⟨⟨[tyC], .allocStruct nC⟩, .singletonB, none⟩)],
   [], [], []⟩

/-- An instance binding for `*N` where `N` has no fields. -/
def c3St : St :=
  ⟨[(nN, [])], [((tyN, defName), ⟨⟨[tyN], .allocStruct nN⟩, .instanceB, none⟩)],
   [], [], []⟩

/-- An injector with no bindings at all. -/
def c4St : St := ⟨[], [], [], [], []⟩

/-- Struct `S{x *T di:type}` whose `*T` provider returns a non-nil error,
and a user-allocated `S` value at address 0. -/
def c5St : St :=
  ⟨[(nS, [⟨nx, tyT, some .byType⟩]), (nT, [])],
   [((tyT, defName), ⟨⟨[tyT, .errTy], .retErr bm⟩, .instanceB, none⟩)],
   [⟨nS, [(nx, Val.nilV)]⟩], [], []⟩

/-- A provider declaring two outputs `(*T, *U)` whose second output is not
an error kind. -/
def c7p : Provider := ⟨[tyT, tyU], .allocStruct nT⟩

/-- The two-output provider `c7p` (second output `*U`, not an error)
registered under `*T` — bind accepts it — so that resolving `*T` panics in
the error type assertion of invoke. -/
def c4bSt : St :=
  ⟨[], [((tyT, defName), ⟨c7p, .singletonB, none⟩)], [], [Val.nilV], []⟩

/-- The destination `&t` for a variable `t` of type `*T`. -/
def c4bDst : Dest := ⟨Ty.ptrTo tyT, 0⟩

/-- A singleton binding for `*C` whose provider returns nil. -/
def c8St : St :=
  ⟨[(nC, [])], [((tyC, defName), ⟨⟨[tyC], .retNil⟩, .singletonB, none⟩)],
   [], [], []⟩

/-- After the nil-returning singleton fails (leaving the state unchanged),
re-registering a correct provider under the same key and resolving again
succeeds. -/
def c8Retry : Bool :=
  match resolveB 5 c8St [] tyC defName with
  | .fail .nilProviderResult s1 =>
    if s1 = c8St then
      match bindM s1 (.fn 0 ⟨[tyC], .allocStruct nC⟩) defName .singletonB with
      | .ok s2 =>
        match resolveB 5 s2 [] tyC defName with
        | .ok (.ref _, _) _ => true
        | _ => false
      | .error _ => false
    else false
  | _ => false

/-- A singleton binding for interface `S` provided by `&C{}`, plus one
destination cell. -/
def c9St : St :=
  ⟨[(nC, [])],
   [((Ty.ifaceTy nS, defName), ⟨⟨[Ty.ifaceTy nS], .allocStruct nC⟩, .singletonB, none⟩)],
   [], [Val.nilV], []⟩

/-- A binding registered only under the pointer type `*S`, plus one
destination cell (triggers the pass-by-value diagnostic). -/
def c9bSt : St :=
  ⟨[],
   [((Ty.ptrTo (Ty.ifaceTy nS), defName),
     ⟨⟨[Ty.ptrTo (Ty.ifaceTy nS)], .allocStruct nC⟩, .singletonB, none⟩)],
   [], [Val.nilV], []⟩

/-- The destination `&s` for a variable `s` of interface type `S`. -/
def c9Dst : Dest := ⟨Ty.ptrTo (Ty.ifaceTy nS), 0⟩

/-- The resolved argument list of a successful `call`, if any. -/
def okVals : RO (List Val) → Option (List Val)
| .ok vs _ => some vs
| _ => none

/-- Whether an outcome is an unrecovered panic. -/
def roPanicked {α : Type} : RO α → Bool
| .panicked _ => true
| _ => false

/-- Whether a registration attempt succeeded. -/
def exOk : Except Err St → Bool
| .ok _ => true
| .error _ => false

/-- Whether, after a registration attempt, the registry holds key `k`. -/
def exHasKey (r : Except Err St) (k : Ty × String) : Bool :=
  match r with
  | .ok s => (alookup s.bindings k).isSome
  | .error _ => false

-- ===== theorems =====

theorem alookup_ains {κ β : Type} [DecidableEq κ] (l : List (κ × β)) (k k' : κ) (v : β) :
    alookup (ains l k v) k' = if k' = k then some v else alookup l k' := by
  simp [ains, alookup]

theorem alookup_nil {κ β : Type} [DecidableEq κ] (k : κ) :
    alookup ([] : List (κ × β)) k = none := rfl

theorem alookup_aset {κ β : Type} [DecidableEq κ] (l : List (κ × β)) (k k' : κ)
    (f : β → β) :
    alookup (aset l k f) k' = if k' = k then (alookup l k').map f else alookup l k' := by
  induction l with
  | nil => simp [aset, alookup]
  | cons p t ih =>
    by_cases h1 : p.1 = k
    · by_cases h2 : k' = k
      · simp [aset, alookup, h1, h2]
      · have h3 : ¬ k' = p.1 := by rw [h1]; exact h2
        simp only [aset] at ih
        simp [aset, alookup, h1, h2, h3, ih]
    · by_cases h2 : k' = p.1
      · have h3 : ¬ k' = k := by rw [h2]; exact h1
        simp [aset, alookup, h1, h2, h3]
      · simp only [aset] at ih
        simp [aset, alookup, h1, h2, ih]


theorem bindShape_refl (s : St) : BindShape s s :=
  fun _ b h => ⟨b.inst, h⟩

theorem bindShape_of_eq {s s' : St} (h : s'.bindings = s.bindings) : BindShape s s' :=
  fun _ b hb => ⟨b.inst, by rw [h]; exact hb⟩

theorem bindShape_trans {s1 s2 s3 : St} (h1 : BindShape s1 s2) (h2 : BindShape s2 s3) :
    BindShape s1 s3 := by
  intro k b hb
  obtain ⟨i, hi⟩ := h1 k b hb
  obtain ⟨j, hj⟩ := h2 k ⟨b.provider, b.btype, i⟩ hi
  exact ⟨j, hj⟩


theorem pres_refl (s : St) : Pres s s :=
  ⟨rfl, rfl, le_refl _, bindShape_refl s⟩

theorem pres_trans {s1 s2 s3 : St} (h1 : Pres s1 s2) (h2 : Pres s2 s3) : Pres s1 s3 :=
  ⟨h2.1.trans h1.1, h2.2.1.trans h1.2.1, h1.2.2.1.trans h2.2.2.1,
   bindShape_trans h1.2.2.2 h2.2.2.2⟩


theorem ctxLe_refl (c : Ctx) : CtxLe c c := fun _ _ h => h

theorem ctxLe_trans {c1 c2 c3 : Ctx} (h1 : CtxLe c1 c2) (h2 : CtxLe c2 c3) :
    CtxLe c1 c3 := fun k v h => h2 k v (h1 k v h)

theorem ctxLe_ains {c : Ctx} {k : List Ty × String} (v : Val)
    (h : alookup c k = none) : CtxLe c (ains c k v) := by
  intro k' v' h'
  rw [alookup_ains]
  split
  · next heq =>
    subst heq
    rw [h] at h'
    exact absurd h' (by simp)
  · exact h'


theorem pres_setField (s : St) (a : Nat) (f : String) (v : Val) :
    Pres s (setField s a f v) ∧ (setField s a f v).sink = s.sink := by
  unfold setField
  cases h : s.heap[a]? with
  | none => exact ⟨pres_refl s, rfl⟩
  | some o =>
    refine ⟨⟨rfl, rfl, by simp, bindShape_of_eq rfl⟩, rfl⟩

theorem alookup_setInst (s : St) (k k' : Ty × String) (v : Val) :
    alookup (setInst s k v).bindings k' =
      if k' = k then (alookup s.bindings k').map (fun b => { b with inst := some v })
      else alookup s.bindings k' := by
  show alookup (aset s.bindings k fun b => { b with inst := some v }) k' = _
  exact alookup_aset _ _ _ _

theorem pres_setInst (s : St) (k : Ty × String) (v : Val) :
    Pres s (setInst s k v) ∧ (setInst s k v).sink = s.sink := by
  refine ⟨⟨rfl, rfl, le_refl _, ?_⟩, rfl⟩
  intro k' b hb
  rw [alookup_setInst]
  split
  · exact ⟨some v, by rw [hb]; rfl⟩
  · exact ⟨b.inst, hb⟩

theorem pres_sinkErr (s : St) (e : Err) :
    Pres s (sinkErr s e) ∧ (sinkErr s e).sink = s.sink ++ [e] :=
  ⟨⟨rfl, rfl, le_refl _, bindShape_of_eq rfl⟩, rfl⟩

/-- Compose a preservation step in front of an outcome invariant. -/
theorem roPres_comp {β : Type} {s s1 : St} (h1 : Pres s s1) (hsink : s1.sink = s.sink)
    {r : RO β} (h2 : ROPres s1 r) : ROPres s r := by
  cases r with
  | ok a s' =>
    refine ⟨pres_trans h1 h2.1, ?_⟩
    have hs : s'.sink = s1.sink := h2.2
    show s'.sink = s.sink
    rw [hs]
    exact hsink
  | fail e s' =>
    refine ⟨pres_trans h1 h2.1, ?_⟩
    have hs : s'.sink = s1.sink := h2.2
    show s'.sink = s.sink
    rw [hs]
    exact hsink
  | panicked s' =>
    refine ⟨pres_trans h1 h2.1, ?_⟩
    cases h2.2 with
    | inl he => exact Or.inl (by rw [he]; exact hsink)
    | inr he =>
      obtain ⟨e, he⟩ := he
      exact Or.inr ⟨e, by rw [he]; exact congrArg (· ++ [e]) hsink⟩

/-- A panic inside invoke leaves the state — in particular the error sink —
completely unchanged: the reflection panic is not surfaced. -/
theorem invoke_panic_state {s s1 : St} {p : Provider}
    (h : invoke s p = RO.panicked s1) : s1 = s := by
  cases houts : p.outs with
  | nil => simp [invoke, houts] at h
  | cons t0 rest =>
    cases rest with
    | nil =>
      cases hb : p.body <;> simp [invoke, houts, hb] at h
      exact h.symm
    | cons t1 rest2 =>
      cases rest2 with
      | nil =>
        cases hk : t1.kind with
        | ifaceK =>
          cases hb : p.body with
          | allocStruct nm => simp [invoke, houts, hk, hb] at h
          | retNil => simp [invoke, houts, hk, hb] at h
          | retErr m =>
            by_cases he : t1 = Ty.errTy
            · simp [invoke, houts, hk, hb, he, Ty.kind] at h
            · simp [invoke, houts, hk, hb, he] at h
              exact h.symm
          | retBase =>
            simp [invoke, houts, hk, hb] at h
            exact h.symm
        | ptrK =>
          simp [invoke, houts, hk] at h
          exact h.symm
        | structK =>
          simp [invoke, houts, hk] at h
          exact h.symm
        | otherK =>
          simp [invoke, houts, hk] at h
          exact h.symm
      | cons t2 rest3 => simp [invoke, houts] at h

theorem invoke_pres (s : St) (p : Provider) : ROPres s (invoke s p) := by
  have hok : ∀ (o : Obj),
      ROPres s (RO.ok (Val.ref s.heap.length) { s with heap := s.heap ++ [o] }) :=
    fun o => ⟨⟨rfl, rfl, by simp [RO.st], bindShape_of_eq rfl⟩, rfl⟩
  unfold invoke
  split
  · split
    · exact hok _
    · exact ⟨pres_refl s, rfl⟩
    · exact hok _
    · exact ⟨pres_refl s, Or.inl rfl⟩
  · split
    · split
      · exact hok _
      · exact ⟨pres_refl s, rfl⟩
      · split
        · exact ⟨pres_refl s, rfl⟩
        · exact ⟨pres_refl s, Or.inl rfl⟩
      · exact ⟨pres_refl s, Or.inl rfl⟩
    · exact ⟨pres_refl s, Or.inl rfl⟩
  · exact ⟨pres_refl s, rfl⟩

section StepLemmas

variable {n : Nat} {s s1 s2 : St} {ctx ctx2 : Ctx} {ty : Ty} {name : String}
variable {b : Binding} {v : Val} {e : Err}

theorem resolveB_zero : resolveB 0 s ctx ty name = RO.fail .outOfFuel s := by
  simp [resolveB]

theorem resolveB_notFound (hb : alookup s.bindings (ty, name) = none) :
    resolveB (n + 1) s ctx ty name = RO.fail (.notFound ty) s := by
  simp [resolveB, hb]

theorem resolveB_ctxHit (hb : alookup s.bindings (ty, name) = some b)
    (hc : alookup ctx (b.provider.outs, name) = some v) :
    resolveB (n + 1) s ctx ty name = RO.ok (v, ctx) s := by
  simp [resolveB, hb, hc]

theorem resolveB_cached (hb : alookup s.bindings (ty, name) = some b)
    (hc : alookup ctx (b.provider.outs, name) = none)
    (hs : b.btype = .singletonB) (hi : b.inst = some v) :
    resolveB (n + 1) s ctx ty name = RO.ok (v, ctx) s := by
  simp [resolveB, hb, hc, hs, hi]

theorem resolveB_singleton_invokeFail (hb : alookup s.bindings (ty, name) = some b)
    (hc : alookup ctx (b.provider.outs, name) = none)
    (hs : b.btype = .singletonB) (hi : b.inst = none)
    (hin : invoke s b.provider = RO.fail e s1) :
    resolveB (n + 1) s ctx ty name = RO.fail e s1 := by
  simp [resolveB, hb, hc, hs, hi, hin]

theorem resolveB_singleton_invokePanic (hb : alookup s.bindings (ty, name) = some b)
    (hc : alookup ctx (b.provider.outs, name) = none)
    (hs : b.btype = .singletonB) (hi : b.inst = none)
    (hin : invoke s b.provider = RO.panicked s1) :
    resolveB (n + 1) s ctx ty name = RO.panicked s1 := by
  simp [resolveB, hb, hc, hs, hi, hin]

theorem resolveB_singleton_fillFail (hb : alookup s.bindings (ty, name) = some b)
    (hc : alookup ctx (b.provider.outs, name) = none)
    (hs : b.btype = .singletonB) (hi : b.inst = none)
    (hin : invoke s b.provider = RO.ok v s1)
    (hf : fillInstance n s1 (ains ctx (b.provider.outs, name) v) v = RO.fail e s2) :
    resolveB (n + 1) s ctx ty name = RO.fail e s2 := by
  simp [resolveB, hb, hc, hs, hi, hin, hf]

theorem resolveB_singleton_fillPanic (hb : alookup s.bindings (ty, name) = some b)
    (hc : alookup ctx (b.provider.outs, name) = none)
    (hs : b.btype = .singletonB) (hi : b.inst = none)
    (hin : invoke s b.provider = RO.ok v s1)
    (hf : fillInstance n s1 (ains ctx (b.provider.outs, name) v) v = RO.panicked s2) :
    resolveB (n + 1) s ctx ty name = RO.panicked s2 := by
  simp [resolveB, hb, hc, hs, hi, hin, hf]

theorem resolveB_singleton_create (hb : alookup s.bindings (ty, name) = some b)
    (hc : alookup ctx (b.provider.outs, name) = none)
    (hs : b.btype = .singletonB) (hi : b.inst = none)
    (hin : invoke s b.provider = RO.ok v s1)
    (hf : fillInstance n s1 (ains ctx (b.provider.outs, name) v) v = RO.ok ctx2 s2) :
    resolveB (n + 1) s ctx ty name = RO.ok (v, ctx2) (setInst s2 (ty, name) v) := by
  simp [resolveB, hb, hc, hs, hi, hin, hf]

theorem resolveB_instance_invokeFail (hb : alookup s.bindings (ty, name) = some b)
    (hc : alookup ctx (b.provider.outs, name) = none)
    (hs : b.btype = .instanceB)
    (hin : invoke s b.provider = RO.fail e s1) :
    resolveB (n + 1) s ctx ty name = RO.fail e s1 := by
  simp [resolveB, hb, hc, hs, hin]

theorem resolveB_instance_invokePanic (hb : alookup s.bindings (ty, name) = some b)
    (hc : alookup ctx (b.provider.outs, name) = none)
    (hs : b.btype = .instanceB)
    (hin : invoke s b.provider = RO.panicked s1) :
    resolveB (n + 1) s ctx ty name = RO.panicked s1 := by
  simp [resolveB, hb, hc, hs, hin]

theorem resolveB_instance_fillFail (hb : alookup s.bindings (ty, name) = some b)
    (hc : alookup ctx (b.provider.outs, name) = none)
    (hs : b.btype = .instanceB)
    (hin : invoke s b.provider = RO.ok v s1)
    (hf : fillInstance n s1 (ains ctx (b.provider.outs, name) v) v = RO.fail e s2) :
    resolveB (n + 1) s ctx ty name = RO.fail e s2 := by
  simp [resolveB, hb, hc, hs, hin, hf]

theorem resolveB_instance_fillPanic (hb : alookup s.bindings (ty, name) = some b)
    (hc : alookup ctx (b.provider.outs, name) = none)
    (hs : b.btype = .instanceB)
    (hin : invoke s b.provider = RO.ok v s1)
    (hf : fillInstance n s1 (ains ctx (b.provider.outs, name) v) v = RO.panicked s2) :
    resolveB (n + 1) s ctx ty name = RO.panicked s2 := by
  simp [resolveB, hb, hc, hs, hin, hf]

theorem resolveB_instance_create (hb : alookup s.bindings (ty, name) = some b)
    (hc : alookup ctx (b.provider.outs, name) = none)
    (hs : b.btype = .instanceB)
    (hin : invoke s b.provider = RO.ok v s1)
    (hf : fillInstance n s1 (ains ctx (b.provider.outs, name) v) v = RO.ok ctx2 s2) :
    resolveB (n + 1) s ctx ty name = RO.ok (v, ctx2) s2 := by
  simp [resolveB, hb, hc, hs, hin, hf]

theorem fillInstance_zero : fillInstance 0 s ctx v = RO.fail .outOfFuel s := by
  simp [fillInstance]

theorem fillInstance_nil : fillInstance (n + 1) s ctx .nilV = RO.fail .invalidFillArg s := by
  simp [fillInstance]

theorem fillInstance_bad {a : Nat} (hh : s.heap[a]? = none) :
    fillInstance (n + 1) s ctx (.ref a) = RO.fail .invalidFillArg s := by
  simp [fillInstance, hh]

theorem fillInstance_obj {a : Nat} {o : Obj} (hh : s.heap[a]? = some o) :
    fillInstance (n + 1) s ctx (.ref a) =
      fillFields n s ctx a ((alookup s.env o.tyName).getD []) := by
  simp [fillInstance, hh]

theorem fillFields_zero {a : Nat} {fds : List FieldDecl} :
    fillFields 0 s ctx a fds = RO.fail .outOfFuel s := by
  simp [fillFields]

theorem fillFields_nil {a : Nat} : fillFields (n + 1) s ctx a [] = RO.ok ctx s := by
  simp [fillFields]

theorem fillFields_untagged {a : Nat} {fd : FieldDecl} {rest : List FieldDecl}
    (ht : fd.tag = none) :
    fillFields (n + 1) s ctx a (fd :: rest) = fillFields n s ctx a rest := by
  simp [fillFields, ht]

theorem fillFields_badTag {a : Nat} {fd : FieldDecl} {rest : List FieldDecl} {tg : Tag}
    (ht : fd.tag = some tg) (htn : fillTagName tg fd.fname = none) :
    fillFields (n + 1) s ctx a (fd :: rest) = RO.fail (.invalidTagOn fd.fname tg) s := by
  simp [fillFields, ht, htn]

theorem fillFields_missing {a : Nat} {fd : FieldDecl} {rest : List FieldDecl} {tg : Tag}
    (ht : fd.tag = some tg) (htn : fillTagName tg fd.fname = some name)
    (hb : alookup s.bindings (fd.fty, name) = none) :
    fillFields (n + 1) s ctx a (fd :: rest) =
      RO.fail (.unresolvedField fd.fname fd.fty) s := by
  simp [fillFields, ht, htn, hb]

theorem fillFields_resolved {a : Nat} {fd : FieldDecl} {rest : List FieldDecl} {tg : Tag}
    {ctx1 : Ctx}
    (ht : fd.tag = some tg) (htn : fillTagName tg fd.fname = some name)
    (hb : alookup s.bindings (fd.fty, name) = some b)
    (hr : resolveB n s ctx fd.fty name = RO.ok (v, ctx1) s1) :
    fillFields (n + 1) s ctx a (fd :: rest) =
      fillFields n (setField s1 a fd.fname v) ctx1 a rest := by
  simp [fillFields, ht, htn, hb, hr]

theorem fillFields_resolveFail {a : Nat} {fd : FieldDecl} {rest : List FieldDecl} {tg : Tag}
    (ht : fd.tag = some tg) (htn : fillTagName tg fd.fname = some name)
    (hb : alookup s.bindings (fd.fty, name) = some b)
    (hr : resolveB n s ctx fd.fty name = RO.fail e s1) :
    fillFields (n + 1) s ctx a (fd :: rest) = RO.panicked (sinkErr s1 e) := by
  simp [fillFields, ht, htn, hb, hr]

theorem fillFields_resolvePanic {a : Nat} {fd : FieldDecl} {rest : List FieldDecl} {tg : Tag}
    (ht : fd.tag = some tg) (htn : fillTagName tg fd.fname = some name)
    (hb : alookup s.bindings (fd.fty, name) = some b)
    (hr : resolveB n s ctx fd.fty name = RO.panicked s1) :
    fillFields (n + 1) s ctx a (fd :: rest) = RO.panicked s1 := by
  simp [fillFields, ht, htn, hb, hr]

end StepLemmas

/-- The master invariant: every fuelled run of the resolver, of instance
auto-wiring, or of the field loop preserves the state shape, follows the
sink discipline (nothing added on a normal return or a returned error,
exactly one error surfaced by a panic), and only grows the context. -/
theorem pres_all : ∀ n : Nat,
    (∀ s ctx ty name, ROPres s (resolveB n s ctx ty name) ∧
      ∀ v c' s', resolveB n s ctx ty name = RO.ok (v, c') s' → CtxLe ctx c') ∧
    (∀ s ctx v, ROPres s (fillInstance n s ctx v) ∧
      ∀ c' s', fillInstance n s ctx v = RO.ok c' s' → CtxLe ctx c') ∧
    (∀ s ctx a fds, ROPres s (fillFields n s ctx a fds) ∧
      ∀ c' s', fillFields n s ctx a fds = RO.ok c' s' → CtxLe ctx c') := by
  intro n
  induction n with
  | zero =>
    refine ⟨fun s ctx ty name => ⟨?_, ?_⟩, fun s ctx v => ⟨?_, ?_⟩,
      fun s ctx a fds => ⟨?_, ?_⟩⟩
    · rw [resolveB_zero]
      exact ⟨pres_refl s, rfl⟩
    · intro v c' s' h
      rw [resolveB_zero] at h
      cases h
    · rw [fillInstance_zero]
      exact ⟨pres_refl s, rfl⟩
    · intro c' s' h
      rw [fillInstance_zero] at h
      cases h
    · rw [fillFields_zero]
      exact ⟨pres_refl s, rfl⟩
    · intro c' s' h
      rw [fillFields_zero] at h
      cases h
  | succ n ih =>
    obtain ⟨ihR, ihFI, ihFF⟩ := ih
    refine ⟨fun s ctx ty name => ?_, fun s ctx v => ?_, fun s ctx a fds => ?_⟩
    · -- resolveB at n+1
      cases hb : alookup s.bindings (ty, name) with
      | none =>
        rw [resolveB_notFound hb]
        exact ⟨⟨pres_refl s, rfl⟩, fun v c' s' h => by cases h⟩
      | some b =>
        cases hc : alookup ctx (b.provider.outs, name) with
        | some v =>
          rw [resolveB_ctxHit hb hc]
          refine ⟨⟨pres_refl s, rfl⟩, fun v' c' s' h => ?_⟩
          injection h with h1 h2
          injection h1 with g1 g2
          subst g2
          exact ctxLe_refl ctx
        | none =>
          cases hbt : b.btype with
          | singletonB =>
            cases hi : b.inst with
            | some v =>
              rw [resolveB_cached hb hc hbt hi]
              refine ⟨⟨pres_refl s, rfl⟩, fun v' c' s' h => ?_⟩
              injection h with h1 h2
              injection h1 with g1 g2
              subst g2
              exact ctxLe_refl ctx
            | none =>
              have hinv := invoke_pres s b.provider
              cases hin : invoke s b.provider with
              | fail e s1 =>
                rw [resolveB_singleton_invokeFail hb hc hbt hi hin]
                rw [hin] at hinv
                exact ⟨hinv, fun v c' s' h => by cases h⟩
              | panicked s1 =>
                rw [resolveB_singleton_invokePanic hb hc hbt hi hin]
                rw [hin] at hinv
                exact ⟨hinv, fun v c' s' h => by cases h⟩
              | ok v s1 =>
                rw [hin] at hinv
                have hfi := ihFI s1 (ains ctx (b.provider.outs, name) v) v
                cases hf : fillInstance n s1 (ains ctx (b.provider.outs, name) v) v with
                | fail e s2 =>
                  rw [resolveB_singleton_fillFail hb hc hbt hi hin hf]
                  rw [hf] at hfi
                  exact ⟨roPres_comp hinv.1 hinv.2 hfi.1, fun v' c' s' h => by cases h⟩
                | panicked s2 =>
                  rw [resolveB_singleton_fillPanic hb hc hbt hi hin hf]
                  rw [hf] at hfi
                  exact ⟨roPres_comp hinv.1 hinv.2 hfi.1, fun v' c' s' h => by cases h⟩
                | ok ctx2 s2 =>
                  rw [resolveB_singleton_create hb hc hbt hi hin hf]
                  rw [hf] at hfi
                  have hset := pres_setInst s2 (ty, name) v
                  refine ⟨⟨pres_trans (pres_trans hinv.1 hfi.1.1) hset.1, ?_⟩,
                    fun v' c' s' h => ?_⟩
                  · show (setInst s2 (ty, name) v).sink = s.sink
                    rw [hset.2]
                    have h2 : s2.sink = s1.sink := hfi.1.2
                    rw [h2]
                    exact hinv.2
                  · injection h with h1 h2
                    injection h1 with g1 g2
                    subst g2
                    exact ctxLe_trans (ctxLe_ains v hc) (hfi.2 ctx2 s2 rfl)
          | instanceB =>
            have hinv := invoke_pres s b.provider
            cases hin : invoke s b.provider with
            | fail e s1 =>
              rw [resolveB_instance_invokeFail hb hc hbt hin]
              rw [hin] at hinv
              exact ⟨hinv, fun v c' s' h => by cases h⟩
            | panicked s1 =>
              rw [resolveB_instance_invokePanic hb hc hbt hin]
              rw [hin] at hinv
              exact ⟨hinv, fun v c' s' h => by cases h⟩
            | ok v s1 =>
              rw [hin] at hinv
              have hfi := ihFI s1 (ains ctx (b.provider.outs, name) v) v
              cases hf : fillInstance n s1 (ains ctx (b.provider.outs, name) v) v with
              | fail e s2 =>
                rw [resolveB_instance_fillFail hb hc hbt hin hf]
                rw [hf] at hfi
                exact ⟨roPres_comp hinv.1 hinv.2 hfi.1, fun v' c' s' h => by cases h⟩
              | panicked s2 =>
                rw [resolveB_instance_fillPanic hb hc hbt hin hf]
                rw [hf] at hfi
                exact ⟨roPres_comp hinv.1 hinv.2 hfi.1, fun v' c' s' h => by cases h⟩
              | ok ctx2 s2 =>
                rw [resolveB_instance_create hb hc hbt hin hf]
                rw [hf] at hfi
                refine ⟨roPres_comp hinv.1 hinv.2 hfi.1, fun v' c' s' h => ?_⟩
                injection h with h1 h2
                injection h1 with g1 g2
                subst g2
                exact ctxLe_trans (ctxLe_ains v hc) (hfi.2 ctx2 s2 rfl)
    · -- fillInstance at n+1
      cases v with
      | nilV =>
        rw [fillInstance_nil]
        exact ⟨⟨pres_refl s, rfl⟩, fun c' s' h => by cases h⟩
      | ref a =>
        cases hh : s.heap[a]? with
        | none =>
          rw [fillInstance_bad hh]
          exact ⟨⟨pres_refl s, rfl⟩, fun c' s' h => by cases h⟩
        | some o =>
          rw [fillInstance_obj hh]
          exact ihFF s ctx a ((alookup s.env o.tyName).getD [])
    · -- fillFields at n+1
      cases fds with
      | nil =>
        rw [fillFields_nil]
        refine ⟨⟨pres_refl s, rfl⟩, fun c' s' h => ?_⟩
        injection h with h1 h2
        subst h1
        exact ctxLe_refl ctx
      | cons fd rest =>
        cases ht : fd.tag with
        | none =>
          rw [fillFields_untagged ht]
          exact ihFF s ctx a rest
        | some tg =>
          cases htn : fillTagName tg fd.fname with
          | none =>
            rw [fillFields_badTag ht htn]
            exact ⟨⟨pres_refl s, rfl⟩, fun c' s' h => by cases h⟩
          | some name =>
            cases hb : alookup s.bindings (fd.fty, name) with
            | none =>
              rw [fillFields_missing ht htn hb]
              exact ⟨⟨pres_refl s, rfl⟩, fun c' s' h => by cases h⟩
            | some b =>
              have hrb := ihR s ctx fd.fty name
              cases hr : resolveB n s ctx fd.fty name with
              | ok vc s1 =>
                obtain ⟨v, ctx1⟩ := vc
                rw [fillFields_resolved ht htn hb hr]
                rw [hr] at hrb
                have hsf := pres_setField s1 a fd.fname v
                have hff := ihFF (setField s1 a fd.fname v) ctx1 a rest
                refine ⟨?_, fun c' s' h => ?_⟩
                · exact roPres_comp hrb.1.1 hrb.1.2 (roPres_comp hsf.1 hsf.2 hff.1)
                · exact ctxLe_trans (hrb.2 v ctx1 s1 rfl) (hff.2 c' s' h)
              | fail e s1 =>
                rw [fillFields_resolveFail ht htn hb hr]
                rw [hr] at hrb
                have hse := pres_sinkErr s1 e
                refine ⟨⟨pres_trans hrb.1.1 hse.1, Or.inr ⟨e, ?_⟩⟩,
                  fun c' s' h => by cases h⟩
                show (sinkErr s1 e).sink = s.sink ++ [e]
                rw [hse.2]
                have h2 : s1.sink = s.sink := hrb.1.2
                rw [h2]
              | panicked s1 =>
                rw [fillFields_resolvePanic ht htn hb hr]
                rw [hr] at hrb
                exact ⟨hrb.1, fun c' s' h => by cases h⟩

theorem resolveB_pres (n : Nat) (s : St) (ctx : Ctx) (ty : Ty) (name : String) :
    ROPres s (resolveB n s ctx ty name) :=
  ((pres_all n).1 s ctx ty name).1

theorem fillInstance_pres (n : Nat) (s : St) (ctx : Ctx) (v : Val) :
    ROPres s (fillInstance n s ctx v) :=
  ((pres_all n).2.1 s ctx v).1

theorem resolveB_ctxLe {n : Nat} {s s' : St} {ctx c' : Ctx} {ty : Ty} {name : String}
    {v : Val} (h : resolveB n s ctx ty name = RO.ok (v, c') s') : CtxLe ctx c' :=
  ((pres_all n).1 s ctx ty name).2 v c' s' h

theorem fillInstance_ctxLe {n : Nat} {s s' : St} {ctx c' : Ctx} {v : Val}
    (h : fillInstance n s ctx v = RO.ok c' s') : CtxLe ctx c' :=
  ((pres_all n).2.1 s ctx v).2 c' s' h

/-- A successful provider invocation allocates one fresh object at the end
of the heap and returns its address. -/
theorem invoke_ok {s s1 : St} {p : Provider} {v : Val} (h : invoke s p = RO.ok v s1) :
    v = .ref s.heap.length ∧ ∃ o, s1 = { s with heap := s.heap ++ [o] } := by
  cases houts : p.outs with
  | nil => simp [invoke, houts] at h
  | cons t0 rest =>
    cases rest with
    | nil =>
      cases hb : p.body with
      | allocStruct nm =>
        simp only [invoke, houts, hb] at h
        injection h with hv hs
        exact ⟨hv.symm, ⟨_, hs.symm⟩⟩
      | retNil => simp [invoke, houts, hb] at h
      | retErr m =>
        simp only [invoke, houts, hb] at h
        injection h with hv hs
        exact ⟨hv.symm, ⟨_, hs.symm⟩⟩
      | retBase => simp [invoke, houts, hb] at h
    | cons t1 rest2 =>
      cases rest2 with
      | nil =>
        cases hk : t1.kind with
        | ifaceK =>
          cases hb : p.body with
          | allocStruct nm =>
            simp only [invoke, houts, hk, hb] at h
            injection h with hv hs
            exact ⟨hv.symm, ⟨_, hs.symm⟩⟩
          | retNil => simp [invoke, houts, hk, hb] at h
          | retErr m =>
            by_cases he : t1 = Ty.errTy
            · simp [invoke, houts, hk, hb, he, Ty.kind] at h
            · simp [invoke, houts, hk, hb, he] at h
          | retBase => simp [invoke, houts, hk, hb] at h
        | ptrK => simp [invoke, houts, hk] at h
        | structK => simp [invoke, houts, hk] at h
        | otherK => simp [invoke, houts, hk] at h
      | cons t2 rest3 => simp [invoke, houts] at h

theorem invoke_retNil {s : St} {p : Provider} {t0 : Ty}
    (houts : p.outs = [t0] ∨ p.outs = [t0, Ty.errTy]) (hbody : p.body = .retNil) :
    invoke s p = RO.fail .nilProviderResult s := by
  cases houts with
  | inl h1 => simp [invoke, h1, hbody]
  | inr h2 => simp [invoke, h2, hbody, Ty.kind]

theorem invoke_retErr {s : St} {p : Provider} {t0 : Ty} {m : String}
    (houts : p.outs = [t0, Ty.errTy]) (hbody : p.body = .retErr m) :
    invoke s p = RO.fail (.providerError m) s := by
  simp [invoke, houts, hbody, Ty.kind]

/-- A two-output provider whose second output has a concrete
(non-interface) kind panics on every invocation: the boxed second value is
a non-nil interface and the error type assertion fails. -/
theorem invoke_concrete_second {s : St} {p : Provider} {t0 t1 : Ty}
    (houts : p.outs = [t0, t1]) (hk : t1.kind ≠ Kind.ifaceK) :
    invoke s p = RO.panicked s := by
  cases hkk : t1.kind with
  | ifaceK => exact absurd hkk hk
  | ptrK => simp [invoke, houts, hkk]
  | structK => simp [invoke, houts, hkk]
  | otherK => simp [invoke, houts, hkk]

/-- A nil `get` result means the underlying resolution succeeded with that
value and a fresh context. -/
theorem getM_ok_some {n : Nat} {s t : St} {ty : Ty} {name : String} {w : Val}
    (h : getM n s ty name = RO.ok (some w) t) :
    ∃ c, resolveB n s [] ty name = RO.ok (w, c) t := by
  cases hl : alookup s.bindings (ty, name) with
  | none =>
    simp only [getM, hl] at h
    injection h with h1 h2
    cases h1
  | some b2 =>
    cases hr : resolveB n s [] ty name with
    | ok vc s1 =>
      obtain ⟨v, c⟩ := vc
      simp only [getM, hl, hr] at h
      injection h with h1 h2
      injection h1 with hw
      subst hw
      subst h2
      exact ⟨c, rfl⟩
    | fail e s1 =>
      simp only [getM, hl, hr] at h
      injection h with h1 h2
      cases h1
    | panicked s1 =>
      simp only [getM, hl, hr] at h
      injection h

/-- A successful singleton resolution from a fresh context leaves the
binding's cached instance equal to the returned value. -/
theorem singleton_success_caches {n : Nat} {s : St} {ty : Ty} {name : String}
    {b : Binding} {v1 : Val} {c1 : Ctx} {s1 : St}
    (hb : alookup s.bindings (ty, name) = some b)
    (hsing : b.btype = .singletonB)
    (h1 : resolveB n s [] ty name = RO.ok (v1, c1) s1) :
    alookup s1.bindings (ty, name) = some ⟨b.provider, .singletonB, some v1⟩ := by
  cases n with
  | zero =>
    rw [resolveB_zero] at h1
    cases h1
  | succ m =>
    have hc : alookup ([] : Ctx) (b.provider.outs, name) = none := rfl
    cases hi : b.inst with
    | some v =>
      rw [resolveB_cached hb hc hsing hi] at h1
      injection h1 with ha hs'
      injection ha with hv hcx
      subst hs'
      subst hv
      rw [hb, ← hsing, ← hi]
    | none =>
      cases hin : invoke s b.provider with
      | fail e t1 =>
        rw [resolveB_singleton_invokeFail hb hc hsing hi hin] at h1
        cases h1
      | panicked t1 =>
        rw [resolveB_singleton_invokePanic hb hc hsing hi hin] at h1
        cases h1
      | ok v t1 =>
        cases hf : fillInstance m t1 (ains [] (b.provider.outs, name) v) v with
        | fail e t2 =>
          rw [resolveB_singleton_fillFail hb hc hsing hi hin hf] at h1
          cases h1
        | panicked t2 =>
          rw [resolveB_singleton_fillPanic hb hc hsing hi hin hf] at h1
          cases h1
        | ok ctx2 t2 =>
          rw [resolveB_singleton_create hb hc hsing hi hin hf] at h1
          injection h1 with ha hs'
          injection ha with hv hcx
          subst hs'
          subst hv
          rw [alookup_setInst, if_pos rfl]
          have hbs : t1.bindings = s.bindings := by
            obtain ⟨hval, o, hst⟩ := invoke_ok hin
            rw [hst]
          have hshape : BindShape t1 t2 := by
            have hp := fillInstance_pres m t1 (ains [] (b.provider.outs, name) v) v
            rw [hf] at hp
            exact hp.1.2.2.2
          obtain ⟨i, hi2⟩ := hshape (ty, name) b (by rw [hbs]; exact hb)
          rw [hi2]
          show some (⟨b.provider, b.btype, some v⟩ : Binding) = _
          rw [hsing]

/-- A successful instance resolution from a context that does not yet hold
this provider invokes the provider: the result is the address freshly
allocated at the front state's heap end, the heap strictly grows, and the
result is memoized in the returned context. -/
theorem instance_resolve_ok {n : Nat} {s : St} {ctx : Ctx} {ty : Ty} {name : String}
    {b : Binding} {v1 : Val} {c1 : Ctx} {s1 : St}
    (hb : alookup s.bindings (ty, name) = some b)
    (hinst : b.btype = .instanceB)
    (hc : alookup ctx (b.provider.outs, name) = none)
    (h : resolveB n s ctx ty name = RO.ok (v1, c1) s1) :
    v1 = .ref s.heap.length ∧ s.heap.length < s1.heap.length ∧
      alookup c1 (b.provider.outs, name) = some v1 := by
  cases n with
  | zero =>
    rw [resolveB_zero] at h
    cases h
  | succ m =>
    cases hin : invoke s b.provider with
    | fail e t1 =>
      rw [resolveB_instance_invokeFail hb hc hinst hin] at h
      cases h
    | panicked t1 =>
      rw [resolveB_instance_invokePanic hb hc hinst hin] at h
      cases h
    | ok v t1 =>
      cases hf : fillInstance m t1 (ains ctx (b.provider.outs, name) v) v with
      | fail e t2 =>
        rw [resolveB_instance_fillFail hb hc hinst hin hf] at h
        cases h
      | panicked t2 =>
        rw [resolveB_instance_fillPanic hb hc hinst hin hf] at h
        cases h
      | ok ctx2 t2 =>
        rw [resolveB_instance_create hb hc hinst hin hf] at h
        injection h with ha hs'
        injection ha with hv hcx
        subst hs'
        subst hv
        subst hcx
        obtain ⟨hval, o, hst⟩ := invoke_ok hin
        have hlen : t1.heap.length = s.heap.length + 1 := by
          rw [hst]
          simp
        have hgrow : t1.heap.length ≤ t2.heap.length := by
          have hp := fillInstance_pres m t1 (ains ctx (b.provider.outs, name) v) v
          rw [hf] at hp
          exact hp.1.2.2.1
        have hmem : alookup (ains ctx (b.provider.outs, name) v)
            (b.provider.outs, name) = some v := by
          rw [alookup_ains, if_pos rfl]
        refine ⟨hval, ?_, ?_⟩
        · omega
        · exact (fillInstance_ctxLe hf) (b.provider.outs, name) v hmem

theorem argumentsM_pres : ∀ (ps : List Ty) (fuel : Nat) (s : St),
    ROPres s (argumentsM fuel s ps) := by
  intro ps
  induction ps with
  | nil => exact fun fuel s => ⟨pres_refl s, rfl⟩
  | cons p rest ih =>
    intro fuel s
    cases hl : alookup s.bindings (p, defName) with
    | none =>
      simp only [argumentsM, hl]
      exact ⟨pres_refl s, rfl⟩
    | some b =>
      have hrp := resolveB_pres fuel s [] p defName
      cases hr : resolveB fuel s [] p defName with
      | ok vc s1 =>
        obtain ⟨v, c⟩ := vc
        rw [hr] at hrp
        have hargs := ih fuel s1
        cases ha : argumentsM fuel s1 rest with
        | ok vs s2 =>
          simp only [argumentsM, hl, hr, ha]
          rw [ha] at hargs
          exact roPres_comp hrp.1 hrp.2 hargs
        | fail e s2 =>
          simp only [argumentsM, hl, hr, ha]
          rw [ha] at hargs
          exact roPres_comp hrp.1 hrp.2 hargs
        | panicked s2 =>
          simp only [argumentsM, hl, hr, ha]
          rw [ha] at hargs
          exact roPres_comp hrp.1 hrp.2 hargs
      | fail e s1 =>
        simp only [argumentsM, hl, hr]
        rw [hr] at hrp
        exact hrp
      | panicked s1 =>
        simp only [argumentsM, hl, hr]
        rw [hr] at hrp
        exact hrp

/-- C1: for mutually referential types `A` (field `b *B` tagged type) and
`B` (field `a *A` tagged type), each registered under Singleton or Instance
in any combination, a top-level resolution of `A` terminates, and the chain
`A.b`, `A.b.a`, `A.b.a.b`, ... is non-nil for six levels of traversal: the
resolver stores the raw instance in the per-call context before recursively
auto-wiring its fields, so the re-entrant resolution reuses that reference. -/
theorem c1_cycle_termination : ∀ ka kb : BTy, c1Check ka kb = true := by
  intro ka kb
  cases ka <;> cases kb <;> decide

/-- C2: for a Singleton binding under `(ty, name)`, two successful
independent top-level resolutions (each with a fresh resolution context, as
constructed by `Get`, `Resolve`, and each separate `Fill`) return the
identical value; the first success caches the instance in the binding, and
later `get` calls return that same cached reference. -/
theorem c2_singleton_identity {s : St} {ty : Ty} {name : String} {b : Binding}
    (hb : alookup s.bindings (ty, name) = some b)
    (hsing : b.btype = .singletonB) :
    (∀ n1 n2 v1 v2 c1 c2 s1 s2,
      resolveB n1 s [] ty name = RO.ok (v1, c1) s1 →
      resolveB n2 s1 [] ty name = RO.ok (v2, c2) s2 →
      v2 = v1 ∧
        alookup s1.bindings (ty, name) = some ⟨b.provider, .singletonB, some v1⟩) ∧
    (∀ n1 n2 w1 w2 t1 t2,
      getM n1 s ty name = RO.ok (some w1) t1 →
      getM n2 t1 ty name = RO.ok (some w2) t2 →
      w2 = w1) := by
  have hmain : ∀ n1 n2 v1 v2 c1 c2 s1 s2,
      resolveB n1 s [] ty name = RO.ok (v1, c1) s1 →
      resolveB n2 s1 [] ty name = RO.ok (v2, c2) s2 →
      v2 = v1 ∧
        alookup s1.bindings (ty, name) = some ⟨b.provider, .singletonB, some v1⟩ := by
    intro n1 n2 v1 v2 c1 c2 s1 s2 h1 h2
    have hcache := singleton_success_caches hb hsing h1
    refine ⟨?_, hcache⟩
    cases n2 with
    | zero =>
      rw [resolveB_zero] at h2
      cases h2
    | succ m =>
      rw [resolveB_cached hcache (alookup_nil _) rfl rfl] at h2
      injection h2 with ha hs'
      injection ha with hv hcx
      exact hv.symm
  refine ⟨hmain, fun n1 n2 w1 w2 t1 t2 hg1 hg2 => ?_⟩
  obtain ⟨c1, hr1⟩ := getM_ok_some hg1
  obtain ⟨c2, hr2⟩ := getM_ok_some hg2
  exact (hmain n1 n2 w1 w2 c1 c2 t1 t2 hr1 hr2).1

/-- Witness for C2 at a concrete program: a singleton `*C` binding resolved
twice returns `ref 0` both times and the binding caches `ref 0`. -/
theorem c2_singleton_identity_witness :
    (Val.ref 0 : Val) = Val.ref 0 ∧
      alookup (resolveB 5 c2St [] tyC defName).st.bindings (tyC, defName) =
        some ⟨⟨[tyC], .allocStruct nC⟩, .singletonB, some (Val.ref 0)⟩ :=
  (@c2_singleton_identity c2St tyC defName ⟨⟨[tyC], .allocStruct nC⟩, .singletonB, none⟩
    (by decide) (by decide)).1 5 5 (Val.ref 0) (Val.ref 0)
    [(([tyC], defName), Val.ref 0)] [] (resolveB 5 c2St [] tyC defName).st
    (resolveB 5 c2St [] tyC defName).st (by decide) (by decide)

/-- C3: for an Instance binding under `(ty, name)`, two independent
top-level resolutions (fresh contexts) yield distinct references, while a
second resolution within the same call (re-using the call's context, as
when the same key is needed twice while wiring one object graph) returns
the identical reference, memoized in the context. -/
theorem c3_instance_distinctness {s : St} {ty : Ty} {name : String} {b : Binding}
    (hb : alookup s.bindings (ty, name) = some b)
    (hinst : b.btype = .instanceB) :
    (∀ n1 n2 v1 v2 c1 c2 s1 s2,
      resolveB n1 s [] ty name = RO.ok (v1, c1) s1 →
      resolveB n2 s1 [] ty name = RO.ok (v2, c2) s2 →
      v1 ≠ v2) ∧
    (∀ n1 n2 v1 c1 s1,
      resolveB n1 s [] ty name = RO.ok (v1, c1) s1 →
      resolveB (n2 + 1) s1 c1 ty name = RO.ok (v1, c1) s1) := by
  constructor
  · intro n1 n2 v1 v2 c1 c2 s1 s2 h1 h2
    obtain ⟨hv1, hlt, _⟩ := instance_resolve_ok hb hinst (alookup_nil _) h1
    have hp := resolveB_pres n1 s [] ty name
    rw [h1] at hp
    obtain ⟨i, hb1⟩ := hp.1.2.2.2 (ty, name) b hb
    have hb2 : alookup s1.bindings (ty, name) = some ⟨b.provider, b.btype, i⟩ := hb1
    obtain ⟨hv2, _, _⟩ := instance_resolve_ok hb2 hinst (alookup_nil _) h2
    rw [hv1, hv2]
    intro heq
    injection heq with ha
    omega
  · intro n1 n2 v1 c1 s1 h1
    obtain ⟨_, _, hmem⟩ := instance_resolve_ok hb hinst (alookup_nil _) h1
    have hp := resolveB_pres n1 s [] ty name
    rw [h1] at hp
    obtain ⟨i, hb1⟩ := hp.1.2.2.2 (ty, name) b hb
    have hb2 : alookup s1.bindings (ty, name) = some ⟨b.provider, b.btype, i⟩ := hb1
    exact resolveB_ctxHit hb2 hmem

/-- Witness for C3 at a concrete program: an instance `*N` binding resolved
in two independent calls yields `ref 0` and `ref 1`; re-resolving within
the first call's context returns `ref 0` again. -/
theorem c3_instance_distinctness_witness :
    (Val.ref 0 : Val) ≠ Val.ref 1 ∧
      resolveB 6 (resolveB 5 c3St [] tyN defName).st
        [(([tyN], defName), Val.ref 0)] tyN defName =
        RO.ok (Val.ref 0, [(([tyN], defName), Val.ref 0)])
          (resolveB 5 c3St [] tyN defName).st :=
  ⟨(@c3_instance_distinctness c3St tyN defName ⟨⟨[tyN], .allocStruct nN⟩, .instanceB, none⟩
      (by decide) (by decide)).1 5 5 (Val.ref 0) (Val.ref 1)
      [(([tyN], defName), Val.ref 0)] [(([tyN], defName), Val.ref 1)]
      (resolveB 5 c3St [] tyN defName).st
      (resolveB 5 (resolveB 5 c3St [] tyN defName).st [] tyN defName).st
      (by decide) (by decide),
   (@c3_instance_distinctness c3St tyN defName ⟨⟨[tyN], .allocStruct nN⟩, .instanceB, none⟩
      (by decide) (by decide)).2 5 5 (Val.ref 0)
      [(([tyN], defName), Val.ref 0)] (resolveB 5 c3St [] tyN defName).st
      (by decide)⟩

section ResolveMLemmas

variable {fuel : Nat} {s s1 : St} {name : String} {d : Dest} {elem : Ty}
variable {bb bp : Binding} {v : Val} {c : Ctx} {e : Err}

theorem resolveM_none : resolveM fuel s none name = RO.fail .nilAbstraction s := by
  simp [resolveM]

theorem resolveM_notPtr (hd : d.dty.kind ≠ Kind.ptrK) :
    resolveM fuel s (some d) name = RO.fail (.invalidArgKind d.dty) s := by
  cases hdd : d.dty with
  | ptrTo elem => exact absurd (by rw [hdd]; rfl) hd
  | ifaceTy nm => simp [resolveM, hdd]
  | structTy nm => simp [resolveM, hdd]
  | errTy => simp [resolveM, hdd]
  | baseTy nm => simp [resolveM, hdd]

theorem resolveM_badElem (hd : d.dty = .ptrTo elem) (hk : kindElemOk elem = false) :
    resolveM fuel s (some d) name = RO.fail (.invalidArgKind d.dty) s := by
  simp [resolveM, hd, hk]

theorem resolveM_notFound (hd : d.dty = .ptrTo elem) (hk : kindElemOk elem = true)
    (hl : alookup s.bindings (elem, name) = none)
    (hl2 : alookup s.bindings (Ty.ptrTo elem, name) = none) :
    resolveM fuel s (some d) name = RO.fail (.notFound elem) s := by
  simp [resolveM, hd, hk, hl, hl2]

theorem resolveM_passedByValue (hd : d.dty = .ptrTo elem) (hk : kindElemOk elem = true)
    (hl : alookup s.bindings (elem, name) = none)
    (hl2 : alookup s.bindings (Ty.ptrTo elem, name) = some bp) :
    resolveM fuel s (some d) name = RO.fail (.passedByValue elem) s := by
  simp [resolveM, hd, hk, hl, hl2]

theorem resolveM_resolveOk (hd : d.dty = .ptrTo elem) (hk : kindElemOk elem = true)
    (hl : alookup s.bindings (elem, name) = some bb)
    (hr : resolveB fuel s [] elem name = RO.ok (v, c) s1) :
    resolveM fuel s (some d) name = RO.ok () (setCell s1 d.cell v) := by
  simp [resolveM, hd, hk, hl, hr]

theorem resolveM_resolveFail (hd : d.dty = .ptrTo elem) (hk : kindElemOk elem = true)
    (hl : alookup s.bindings (elem, name) = some bb)
    (hr : resolveB fuel s [] elem name = RO.fail e s1) :
    resolveM fuel s (some d) name = RO.fail e s1 := by
  simp [resolveM, hd, hk, hl, hr]

theorem resolveM_resolvePanic (hd : d.dty = .ptrTo elem) (hk : kindElemOk elem = true)
    (hl : alookup s.bindings (elem, name) = some bb)
    (hr : resolveB fuel s [] elem name = RO.panicked s1) :
    resolveM fuel s (some d) name = RO.panicked s1 := by
  simp [resolveM, hd, hk, hl, hr]

/-- On any returned error or panic, `Injector.resolve` leaves the
destination cells untouched and follows the sink discipline. -/
theorem resolveM_err_invariant (fuel : Nat) (s : St) (dst : Option Dest)
    (name : String) :
    (∀ e s', resolveM fuel s dst name = RO.fail e s' →
      s'.cells = s.cells ∧ s'.sink = s.sink) ∧
    (∀ s', resolveM fuel s dst name = RO.panicked s' →
      s'.cells = s.cells ∧ (s'.sink = s.sink ∨ ∃ e, s'.sink = s.sink ++ [e])) := by
  cases dst with
  | none =>
    refine ⟨fun e s' h => ?_, fun s' h => ?_⟩
    · rw [resolveM_none] at h
      injection h with h1 h2
      rw [← h2]
      exact ⟨rfl, rfl⟩
    · rw [resolveM_none] at h
      injection h
  | some d =>
    by_cases hdk : d.dty.kind = Kind.ptrK
    case neg =>
      refine ⟨fun e s' h => ?_, fun s' h => ?_⟩
      · rw [resolveM_notPtr hdk] at h
        injection h with h1 h2
        rw [← h2]
        exact ⟨rfl, rfl⟩
      · rw [resolveM_notPtr hdk] at h
        injection h
    case pos =>
      obtain ⟨elem, hd⟩ : ∃ elem, d.dty = .ptrTo elem := by
        cases hdd : d.dty with
        | ptrTo elem => exact ⟨elem, rfl⟩
        | ifaceTy nm => rw [hdd] at hdk; cases hdk
        | structTy nm => rw [hdd] at hdk; cases hdk
        | errTy => rw [hdd] at hdk; cases hdk
        | baseTy nm => rw [hdd] at hdk; cases hdk
      cases hk : kindElemOk elem with
      | false =>
        refine ⟨fun e s' h => ?_, fun s' h => ?_⟩
        · rw [resolveM_badElem hd hk] at h
          injection h with h1 h2
          rw [← h2]
          exact ⟨rfl, rfl⟩
        · rw [resolveM_badElem hd hk] at h
          injection h
      | true =>
        cases hl : alookup s.bindings (elem, name) with
        | none =>
          cases hl2 : alookup s.bindings (Ty.ptrTo elem, name) with
          | none =>
            refine ⟨fun e s' h => ?_, fun s' h => ?_⟩
            · rw [resolveM_notFound hd hk hl hl2] at h
              injection h with h1 h2
              rw [← h2]
              exact ⟨rfl, rfl⟩
            · rw [resolveM_notFound hd hk hl hl2] at h
              injection h
          | some bp =>
            refine ⟨fun e s' h => ?_, fun s' h => ?_⟩
            · rw [resolveM_passedByValue hd hk hl hl2] at h
              injection h with h1 h2
              rw [← h2]
              exact ⟨rfl, rfl⟩
            · rw [resolveM_passedByValue hd hk hl hl2] at h
              injection h
        | some bb =>
          have hp := resolveB_pres fuel s [] elem name
          cases hr : resolveB fuel s [] elem name with
          | ok vc s1 =>
            obtain ⟨v, c⟩ := vc
            refine ⟨fun e s' h => ?_, fun s' h => ?_⟩
            · rw [resolveM_resolveOk hd hk hl hr] at h
              injection h
            · rw [resolveM_resolveOk hd hk hl hr] at h
              injection h
          | fail e1 s1 =>
            rw [hr] at hp
            refine ⟨fun e s' h => ?_, fun s' h => ?_⟩
            · rw [resolveM_resolveFail hd hk hl hr] at h
              injection h with h1 h2
              rw [← h2]
              exact ⟨hp.1.2.1, hp.2⟩
            · rw [resolveM_resolveFail hd hk hl hr] at h
              injection h
          | panicked s1 =>
            rw [hr] at hp
            refine ⟨fun e s' h => ?_, fun s' h => ?_⟩
            · rw [resolveM_resolvePanic hd hk hl hr] at h
              injection h
            · rw [resolveM_resolvePanic hd hk hl hr] at h
              injection h with h2
              rw [← h2]
              exact ⟨hp.1.2.1, hp.2⟩

end ResolveMLemmas

section GetMLemmas

variable {fuel : Nat} {s s1 : St} {ty : Ty} {name : String} {b : Binding}
variable {v : Val} {c : Ctx} {e : Err}

theorem getM_miss (hl : alookup s.bindings (ty, name) = none) :
    getM fuel s ty name = RO.ok none (sinkErr s (.notFound ty)) := by
  simp [getM, hl]

theorem getM_resOk (hl : alookup s.bindings (ty, name) = some b)
    (hr : resolveB fuel s [] ty name = RO.ok (v, c) s1) :
    getM fuel s ty name = RO.ok (some v) s1 := by
  simp [getM, hl, hr]

theorem getM_resFail (hl : alookup s.bindings (ty, name) = some b)
    (hr : resolveB fuel s [] ty name = RO.fail e s1) :
    getM fuel s ty name = RO.ok none (sinkErr s1 e) := by
  simp [getM, hl, hr]

theorem getM_resPanic (hl : alookup s.bindings (ty, name) = some b)
    (hr : resolveB fuel s [] ty name = RO.panicked s1) :
    getM fuel s ty name = RO.panicked s1 := by
  simp [getM, hl, hr]

end GetMLemmas

/-- C8: a provider returning nil fails resolution with the nil-provider-result
error, and a provider returning a non-nil error propagates it (for the
provider shapes the claim is about: a single declared output, or a first
output beside a declared error second output); for a Singleton binding
either failure returns with the state unchanged, so the cached value stays
unset and the binding remains retryable — a subsequent registration plus
resolution for the same key succeeds (`c8Retry`). -/
theorem c8_nil_provider_result {n : Nat} {s : St} {ty : Ty} {name : String}
    {b : Binding}
    (hb : alookup s.bindings (ty, name) = some b)
    (hsing : b.btype = .singletonB) (hi : b.inst = none) :
    (∀ t0, (b.provider.outs = [t0] ∨ b.provider.outs = [t0, Ty.errTy]) →
      b.provider.body = .retNil →
      resolveB (n + 1) s [] ty name = RO.fail .nilProviderResult s) ∧
    (∀ m t0, b.provider.outs = [t0, Ty.errTy] → b.provider.body = .retErr m →
      resolveB (n + 1) s [] ty name = RO.fail (.providerError m) s) ∧
    c8Retry = true := by
  refine ⟨fun t0 houts hbody => ?_, fun m t0 houts hbody => ?_, by decide⟩
  · exact resolveB_singleton_invokeFail hb (alookup_nil _) hsing hi
      (invoke_retNil houts hbody)
  · exact resolveB_singleton_invokeFail hb (alookup_nil _) hsing hi
      (invoke_retErr houts hbody)

/-- Witness for C8: the nil-returning singleton for `*C` fails with the
nil-provider-result error leaving the state unchanged, and the retry
scenario succeeds. -/
theorem c8_nil_provider_result_witness :
    (resolveB 5 c8St [] tyC defName = RO.fail .nilProviderResult c8St) ∧
      c8Retry = true :=
  ⟨(@c8_nil_provider_result 4 c8St tyC defName ⟨⟨[tyC], .retNil⟩, .singletonB, none⟩
      (by decide) (by decide) (by decide)).1 tyC (Or.inl (by decide)) (by decide),
   (@c8_nil_provider_result 4 c8St tyC defName ⟨⟨[tyC], .retNil⟩, .singletonB, none⟩
      (by decide) (by decide) (by decide)).2.2⟩

/-- C9: `resolve` requires a non-nil pointer argument whose pointee kind is
struct, interface or pointer; it looks up `(pointeeType, name)`, and when
that key is missing performs a second diagnostic lookup under
`(pointerType, name)` — failing with the distinct passed-by-value error if
found and not-found otherwise; on success the resolved value is assigned
into the pointee. -/
theorem c9_resolve_contract {fuel : Nat} {s : St} {name : String} :
    (resolveM fuel s none name = RO.fail .nilAbstraction s) ∧
    (∀ d : Dest, d.dty.kind ≠ Kind.ptrK →
      resolveM fuel s (some d) name = RO.fail (.invalidArgKind d.dty) s) ∧
    (∀ (d : Dest) elem, d.dty = .ptrTo elem → kindElemOk elem = false →
      resolveM fuel s (some d) name = RO.fail (.invalidArgKind d.dty) s) ∧
    (∀ (d : Dest) elem, d.dty = .ptrTo elem → kindElemOk elem = true →
      alookup s.bindings (elem, name) = none →
      alookup s.bindings (Ty.ptrTo elem, name) = none →
      resolveM fuel s (some d) name = RO.fail (.notFound elem) s) ∧
    (∀ (d : Dest) elem bp, d.dty = .ptrTo elem → kindElemOk elem = true →
      alookup s.bindings (elem, name) = none →
      alookup s.bindings (Ty.ptrTo elem, name) = some bp →
      resolveM fuel s (some d) name = RO.fail (.passedByValue elem) s) ∧
    (∀ (d : Dest) elem bb v c s1, d.dty = .ptrTo elem → kindElemOk elem = true →
      alookup s.bindings (elem, name) = some bb →
      resolveB fuel s [] elem name = RO.ok (v, c) s1 →
      resolveM fuel s (some d) name = RO.ok () (setCell s1 d.cell v)) :=
  ⟨resolveM_none,
   fun _ hd => resolveM_notPtr hd,
   fun _ _ hd hk => resolveM_badElem hd hk,
   fun _ _ hd hk hl hl2 => resolveM_notFound hd hk hl hl2,
   fun _ _ _ hd hk hl hl2 => resolveM_passedByValue hd hk hl hl2,
   fun _ _ _ _ _ _ hd hk hl hr => resolveM_resolveOk hd hk hl hr⟩

/-- Witness for C9: the diagnostic pass-by-value error fires for a binding
registered only under the pointer type, and a successful resolution writes
the instance into the destination cell. -/
theorem c9_resolve_contract_witness :
    resolveM 5 c9bSt (some c9Dst) defName =
      RO.fail (.passedByValue (Ty.ifaceTy nS)) c9bSt ∧
    resolveM 5 c9St (some c9Dst) defName =
      RO.ok () (setCell (resolveB 5 c9St [] (Ty.ifaceTy nS) defName).st 0 (Val.ref 0)) :=
  ⟨(@c9_resolve_contract 5 c9bSt defName).2.2.2.2.1 c9Dst (Ty.ifaceTy nS)
      ⟨⟨[Ty.ptrTo (Ty.ifaceTy nS)], .allocStruct nC⟩, .singletonB, none⟩
      (by decide) (by decide) (by decide) (by decide),
   (@c9_resolve_contract 5 c9St defName).2.2.2.2.2 c9Dst (Ty.ifaceTy nS)
      ⟨⟨[Ty.ifaceTy nS], .allocStruct nC⟩, .singletonB, none⟩ (Val.ref 0)
      [(([Ty.ifaceTy nS], defName), Val.ref 0)]
      (resolveB 5 c9St [] (Ty.ifaceTy nS) defName).st
      (by decide) (by decide) (by decide) (by decide)⟩

/-- C10: whenever `resolve` returns an error for any reason (nil or
non-pointer argument, invalid pointee kind, no binding found, or a failed
resolution) — or panics — the destination cells are completely unchanged;
the pointee is written only after a fully successful resolution. -/
theorem c10_resolve_error_atomicity {fuel : Nat} {s : St} {dst : Option Dest}
    {name : String} :
    (∀ e s', resolveM fuel s dst name = RO.fail e s' → s'.cells = s.cells) ∧
    (∀ s', resolveM fuel s dst name = RO.panicked s' → s'.cells = s.cells) :=
  ⟨fun e s' h => ((resolveM_err_invariant fuel s dst name).1 e s' h).1,
   fun s' h => ((resolveM_err_invariant fuel s dst name).2 s' h).1⟩

/-- Witness for C10: a failing lookup leaves the concrete destination cell
unchanged. -/
theorem c10_resolve_error_atomicity_witness : c4St.cells = c4St.cells :=
  (@c10_resolve_error_atomicity 5 c4St (some c9Dst) defName).1
    (.notFound (Ty.ifaceTy nS)) c4St (by decide)

theorem callM_pres (fuel : Nat) (s : St) (fn : Option (List Ty)) :
    ROPres s (callM fuel s fn) := by
  cases fn with
  | none => exact ⟨pres_refl s, rfl⟩
  | some ps => exact argumentsM_pres ps fuel s

/-- C4 counterexample: one failing `Get` surfaces two errors through the
installed sink — the detection point inside `get` and the recover wrapper —
where the claim requires exactly one surfacing per failure. -/
theorem c4_counterexample :
    (GetOp 5 c4St tyT defName).1 = none ∧
    (GetOp 5 c4St tyT defName).2.sink = [.notFound tyT, .unableToResolve tyT] ∧
    (GetOp 5 c4St tyT defName).2.sink.length ≠ 1 := by
  decide

/-- C4 amended: failures surfaced as Go errors abort the pass and are
reported through the installed sink — exactly once by `Resolve`, `Fill` and
`Call` (a tagged-field resolution failure inside fill surfaces its error
once and then aborts by panic), and exactly twice by a valid-kind
`Get`/`NamedGet` (detection plus the recover wrapper).  Failures that abort
as reflection panics inside provider invocation (a bound provider whose
second output type does not implement error, or a non-nilable non-struct
result behind an interface) surface zero sink errors through
`Resolve`/`Fill`/`Call` — the panic propagates with the sink untouched —
and exactly one through `Get`'s recover wrapper. -/
theorem c4_error_surfacing :
    (∀ fuel (s : St) ty name, kindRefOk ty = true →
      alookup s.bindings (ty, name) = none →
      GetOp fuel s ty name =
        (none, sinkErr (sinkErr s (.notFound ty)) (.unableToResolve ty)) ∧
      (GetOp fuel s ty name).2.sink.length = s.sink.length + 2) ∧
    (∀ fuel (s : St) ty name b e s1, kindRefOk ty = true →
      alookup s.bindings (ty, name) = some b →
      resolveB fuel s [] ty name = RO.fail e s1 →
      (GetOp fuel s ty name).1 = none ∧
      (GetOp fuel s ty name).2.sink.length = s.sink.length + 2) ∧
    (∀ fuel (s : St) ty name b s1, kindRefOk ty = true →
      alookup s.bindings (ty, name) = some b →
      resolveB fuel s [] ty name = RO.panicked s1 →
      GetOp fuel s ty name = (none, sinkErr s1 (.unableToResolve ty)) ∧
      (s1.sink = s.sink ∨ ∃ e, s1.sink = s.sink ++ [e])) ∧
    (∀ fuel (s : St) dst name e s', resolveM fuel s dst name = RO.fail e s' →
      ResolveOp fuel s dst name = RO.ok () (sinkErr s' e) ∧
        (sinkErr s' e).sink.length = s.sink.length + 1) ∧
    (∀ fuel (s : St) dst name s', resolveM fuel s dst name = RO.panicked s' →
      ResolveOp fuel s dst name = RO.panicked s' ∧
        (s'.sink = s.sink ∨ ∃ e, s'.sink = s.sink ++ [e])) ∧
    (∀ fuel (s : St) v e s', fillInstance fuel s [] v = RO.fail e s' →
      FillOp fuel s v = RO.ok () (sinkErr s' e) ∧
        (sinkErr s' e).sink.length = s.sink.length + 1) ∧
    (∀ fuel (s : St) v s', fillInstance fuel s [] v = RO.panicked s' →
      FillOp fuel s v = RO.panicked s' ∧
        (s'.sink = s.sink ∨ ∃ e, s'.sink = s.sink ++ [e])) ∧
    (∀ fuel (s : St) fn e s', callM fuel s fn = RO.fail e s' →
      CallOp fuel s fn = RO.ok none (sinkErr s' e) ∧
        (sinkErr s' e).sink.length = s.sink.length + 1) ∧
    (∀ fuel (s : St) fn s', callM fuel s fn = RO.panicked s' →
      CallOp fuel s fn = RO.panicked s' ∧
        (s'.sink = s.sink ∨ ∃ e, s'.sink = s.sink ++ [e])) ∧
    (∀ (s : St) p s', invoke s p = RO.panicked s' → s' = s) ∧
    (ResolveOp 5 c4bSt (some c4bDst) defName = RO.panicked c4bSt ∧
      c4bSt.sink = []) ∧
    (GetOp 5 c4bSt tyT defName =
      (none, sinkErr c4bSt (.unableToResolve tyT))) := by
  refine ⟨?_, ?_, ?_, ?_, ?_, ?_, ?_, ?_, ?_, ?_, ?_, ?_⟩
  · intro fuel s ty name hk hl
    have hg := @getM_miss fuel s ty name hl
    constructor
    · simp [GetOp, hk, hg]
    · simp [GetOp, hk, hg, sinkErr]
  · intro fuel s ty name b e s1 hk hl hr
    have hg := getM_resFail hl hr
    have hp := resolveB_pres fuel s [] ty name
    rw [hr] at hp
    have hsink : s1.sink = s.sink := hp.2
    constructor
    · simp [GetOp, hk, hg]
    · simp [GetOp, hk, hg, sinkErr, hsink]
  · intro fuel s ty name b s1 hk hl hr
    have hg := getM_resPanic hl hr
    have hp := resolveB_pres fuel s [] ty name
    rw [hr] at hp
    exact ⟨by simp [GetOp, hk, hg], hp.2⟩
  · intro fuel s dst name e s' h
    refine ⟨by simp [ResolveOp, h], ?_⟩
    have hsink := ((resolveM_err_invariant fuel s dst name).1 e s' h).2
    simp [sinkErr, hsink]
  · intro fuel s dst name s' h
    exact ⟨by simp [ResolveOp, h],
      ((resolveM_err_invariant fuel s dst name).2 s' h).2⟩
  · intro fuel s v e s' h
    refine ⟨by simp [FillOp, h], ?_⟩
    have hp := fillInstance_pres fuel s [] v
    rw [h] at hp
    have hsink : s'.sink = s.sink := hp.2
    simp [sinkErr, hsink]
  · intro fuel s v s' h
    have hp := fillInstance_pres fuel s [] v
    rw [h] at hp
    exact ⟨by simp [FillOp, h], hp.2⟩
  · intro fuel s fn e s' h
    refine ⟨by simp [CallOp, h], ?_⟩
    have hp := callM_pres fuel s fn
    rw [h] at hp
    have hsink : s'.sink = s.sink := hp.2
    simp [sinkErr, hsink]
  · intro fuel s fn s' h
    have hp := callM_pres fuel s fn
    rw [h] at hp
    exact ⟨by simp [CallOp, h], hp.2⟩
  · exact fun s p s' h => invoke_panic_state h
  · exact ⟨by decide, by decide⟩
  · decide

/-- Witness for C4 amended: the concrete failing Get adds exactly two sink
entries, and a concrete failing Resolve adds exactly one. -/
theorem c4_error_surfacing_witness :
    (GetOp 5 c4St tyT defName).2.sink.length = c4St.sink.length + 2 ∧
    (ResolveOp 5 c4St (some c9Dst) defName =
      RO.ok () (sinkErr c4St (.notFound (Ty.ifaceTy nS))) ∧
      (sinkErr c4St (.notFound (Ty.ifaceTy nS))).sink.length = c4St.sink.length + 1) :=
  ⟨(c4_error_surfacing.1 5 c4St tyT defName (by decide) (by decide)).2,
   c4_error_surfacing.2.2.2.1 5 c4St (some c9Dst) defName
     (.notFound (Ty.ifaceTy nS)) c4St (by decide)⟩

/-- C5 counterexample: a tagged field whose binding exists but whose
resolution fails is surfaced as the raw provider error, not as an
unresolved-field error decorated with the field identifier, and the pass
ends in a panic. -/
theorem c5_counterexample :
    roPanicked (FillOp 9 c5St (Val.ref 0)) = true ∧
    (FillOp 9 c5St (Val.ref 0)).st.sink = [.providerError bm] ∧
    Err.unresolvedField nx tyT ∉ (FillOp 9 c5St (Val.ref 0)).st.sink := by
  decide

/-- C5 amended: when the binding lookup for a tagged field fails, fill
returns an error decorated with the field's identifier and declared type,
processing no further fields; but when the binding exists and its
resolution fails, the raw resolver error (with no field decoration) is
surfaced exactly once through the error sink and the pass aborts at that
field by panicking on the attempted field write, so no subsequent field is
processed or written. -/
theorem c5_fill_field_failure {n : Nat} {s s1 : St} {ctx : Ctx} {a : Nat}
    {fd : FieldDecl} {rest : List FieldDecl} {tg : Tag} {name : String}
    {b : Binding} {e : Err}
    (ht : fd.tag = some tg) (htn : fillTagName tg fd.fname = some name) :
    (alookup s.bindings (fd.fty, name) = none →
      fillFields (n + 1) s ctx a (fd :: rest) =
        RO.fail (.unresolvedField fd.fname fd.fty) s) ∧
    (alookup s.bindings (fd.fty, name) = some b →
      resolveB n s ctx fd.fty name = RO.fail e s1 →
      fillFields (n + 1) s ctx a (fd :: rest) = RO.panicked (sinkErr s1 e) ∧
        (sinkErr s1 e).sink = s.sink ++ [e] ∧ (sinkErr s1 e).heap = s1.heap) :=
  ⟨fun hl => fillFields_missing ht htn hl,
   fun hl hr => by
     refine ⟨fillFields_resolveFail ht htn hl hr, ?_, rfl⟩
     have hp := resolveB_pres n s ctx fd.fty name
     rw [hr] at hp
     show s1.sink ++ [e] = s.sink ++ [e]
     rw [hp.2]⟩

/-- Witness for C5 amended: the concrete field whose provider errors makes
the field loop panic after surfacing the raw error once. -/
theorem c5_fill_field_failure_witness :
    fillFields 8 c5St [] 0 [⟨nx, tyT, some .byType⟩] =
      RO.panicked (sinkErr c5St (.providerError bm)) ∧
      (sinkErr c5St (.providerError bm)).sink = c5St.sink ++ [.providerError bm] ∧
      (sinkErr c5St (.providerError bm)).heap = c5St.heap :=
  (@c5_fill_field_failure 7 c5St c5St [] 0 ⟨nx, tyT, some .byType⟩ [] .byType defName
      ⟨⟨[tyT, .errTy], .retErr bm⟩, .instanceB, none⟩ (.providerError bm)
      (by decide) (by decide)).2 (by decide) (by decide)

/-- C6 counterexample: two parameters of the same Instance-bound type in
one Call receive distinct references (the source builds a fresh resolution
context for every parameter), where the claim requires the identical
reference within one Call. -/
theorem c6_counterexample :
    okVals (callM 9 c3St (some [tyN, tyN])) = some [Val.ref 0, Val.ref 1] ∧
    Val.ref 0 ≠ Val.ref 1 := by
  decide

/-- C6 amended: Call resolves each parameter type under the default name
only and aborts before invoking the callable when a parameter lookup
fails; but each parameter resolution builds its own fresh resolution
context, so two parameters of the same Instance-bound type receive
distinct references within one Call. -/
theorem c6_per_parameter_context :
    (∀ (s : St) t b fuel vs s', alookup s.bindings (t, defName) = some b →
      b.btype = .instanceB →
      callM fuel s (some [t, t]) = RO.ok vs s' →
      ∃ v1 v2, vs = [v1, v2] ∧ v1 ≠ v2) ∧
    (∀ (s : St) t rest fuel, alookup s.bindings (t, defName) = none →
      callM fuel s (some (t :: rest)) = RO.fail (.notFoundParam t) s) ∧
    (∀ (s : St) fuel, callM fuel s none = RO.fail .mustBeFunction s) := by
  refine ⟨?_, ?_, ?_⟩
  · intro s t b fuel vs s' hb hinst h
    have h' : argumentsM fuel s [t, t] = RO.ok vs s' := h
    cases hr1 : resolveB fuel s [] t defName with
    | fail e s1 =>
      simp only [argumentsM, hb, hr1] at h'
      injection h'
    | panicked s1 =>
      simp only [argumentsM, hb, hr1] at h'
      injection h'
    | ok vc s1 =>
      obtain ⟨v1, c1⟩ := vc
      have hp := resolveB_pres fuel s [] t defName
      rw [hr1] at hp
      obtain ⟨i, hb1⟩ := hp.1.2.2.2 (t, defName) b hb
      have hb1' : alookup s1.bindings (t, defName) = some ⟨b.provider, b.btype, i⟩ :=
        hb1
      cases hr2 : resolveB fuel s1 [] t defName with
      | fail e s2 =>
        simp only [argumentsM, hb, hr1, hb1', hr2] at h'
        injection h'
      | panicked s2 =>
        simp only [argumentsM, hb, hr1, hb1', hr2] at h'
        injection h'
      | ok vc2 s2 =>
        obtain ⟨v2, c2⟩ := vc2
        simp only [argumentsM, hb, hr1, hb1', hr2] at h'
        injection h' with h1 h2
        obtain ⟨hv1, hlt, _⟩ := instance_resolve_ok hb hinst (alookup_nil _) hr1
        obtain ⟨hv2, _, _⟩ := instance_resolve_ok hb1' hinst (alookup_nil _) hr2
        refine ⟨v1, v2, h1.symm, ?_⟩
        rw [hv1, hv2]
        intro heq
        injection heq with ha
        omega
  · intro s t rest fuel hl
    show argumentsM fuel s (t :: rest) = RO.fail (.notFoundParam t) s
    simp [argumentsM, hl]
  · intro s fuel
    rfl

/-- Witness for C6 amended: the concrete two-parameter call over the
instance-bound `*N` yields `[ref 0, ref 1]`, and a missing parameter
aborts the call. -/
theorem c6_per_parameter_context_witness :
    (∃ v1 v2, ([Val.ref 0, Val.ref 1] : List Val) = [v1, v2] ∧ v1 ≠ v2) ∧
    callM 9 c4St (some [tyN]) = RO.fail (.notFoundParam tyN) c4St :=
  ⟨c6_per_parameter_context.1 c3St tyN ⟨⟨[tyN], .allocStruct nN⟩, .instanceB, none⟩
      9 [Val.ref 0, Val.ref 1] (callM 9 c3St (some [tyN, tyN])).st
      (by decide) (by decide) (by decide),
   c6_per_parameter_context.2.1 c4St tyN [] 9 (by decide)⟩

/-- C7 counterexample: binding a provider whose second declared output is a
non-error pointer type succeeds and writes registry keys for both outputs,
where the claim requires an invalid-provider-signature failure with no key
written. -/
theorem c7_counterexample :
    exOk (bindM c4St (.fn 0 c7p) defName .singletonB) = true ∧
    exHasKey (bindM c4St (.fn 0 c7p) defName .singletonB) (tyT, defName) = true ∧
    exHasKey (bindM c4St (.fn 0 c7p) defName .singletonB) (tyU, defName) = true := by
  decide

/-- C7 amended: bind performs no validation of the second declared output's
kind — a provider with two outputs whose first is pointer- or
interface-kind registers successfully, writing an independent binding under
each output type; the validation failures that do exist (non-function
argument, declared parameters, wrong output count, non-reference first
output) abort before any key is written. -/
theorem c7_no_second_output_validation :
    (∀ (s : St) p name bt t0 t1, p.outs = [t0, t1] → kindRefOk t0 = true →
      ∃ s', bindM s (.fn 0 p) name bt = .ok s' ∧
        alookup s'.bindings (t0, name) = some ⟨p, bt, none⟩ ∧
        alookup s'.bindings (t1, name) = some ⟨p, bt, none⟩) ∧
    (∀ (s : St) name bt, bindM s .notFn name bt = .error .mustBeFunction) ∧
    (∀ (s : St) p name bt k, k ≠ 0 →
      bindM s (.fn k p) name bt = .error .noArgsAllowed) ∧
    (∀ (s : St) p name bt, p.outs.length ≠ 1 → p.outs.length ≠ 2 →
      bindM s (.fn 0 p) name bt = .error .wrongOutCount) ∧
    (∀ (s : St) p name bt t0 ts, p.outs = t0 :: ts →
      (p.outs.length = 1 ∨ p.outs.length = 2) → kindRefOk t0 = false →
      bindM s (.fn 0 p) name bt = .error .mustReturnRef) := by
  refine ⟨?_, ?_, ?_, ?_, ?_⟩
  · intro s p name bt t0 t1 houts hk
    refine ⟨St.mk s.env (ains (ains s.bindings (t0, name) ⟨p, bt, none⟩) (t1, name)
        ⟨p, bt, none⟩) s.heap s.cells s.sink, ?_, ?_, ?_⟩
    · simp [bindM, houts, hk, ains]
    · rw [alookup_ains]
      split
      · rfl
      · rw [alookup_ains, if_pos rfl]
    · rw [alookup_ains, if_pos rfl]
  · intro s name bt
    rfl
  · intro s p name bt k hk
    simp [bindM, hk]
  · intro s p name bt h1 h2
    simp [bindM, h1, h2]
  · intro s p name bt t0 ts houts hlen hk
    rw [houts] at hlen
    simp only [bindM, houts]
    rw [if_neg (by simp), if_pos hlen]
    simp [hk]

/-- Witness for C7 amended: the concrete two-pointer-output provider binds
successfully with both keys present, and an argument-taking provider is
rejected. -/
theorem c7_no_second_output_validation_witness :
    (∃ s', bindM c4St (.fn 0 c7p) defName .singletonB = .ok s' ∧
      alookup s'.bindings (tyT, defName) = some ⟨c7p, .singletonB, none⟩ ∧
      alookup s'.bindings (tyU, defName) = some ⟨c7p, .singletonB, none⟩) ∧
    bindM c4St (.fn 1 c7p) defName .singletonB = .error .noArgsAllowed :=
  ⟨c7_no_second_output_validation.1 c4St c7p defName .singletonB tyT tyU
      (by decide) (by decide),
   c7_no_second_output_validation.2.2.1 c4St c7p defName .singletonB 1 (by decide)⟩

end Godi
